import Mathlib

/-!
Shallow embedding of the STM32H7 SPI server task
(`drv/stm32h7-spi-server/src/main.rs`): the configuration tables, the
lock manager (`lock` / `release` / `closed_recv_fail`), the mux
controller (`activate_mux_option` / `deactivate_mux_option`) and the
interrupt-gated byte-pump transfer engine (`ready_writey`), together
with proofs of the behavioural claims about them.

Hardware that is not part of the server source (the `drv-stm32h7-spi`
block driver and the GPIO driver) is modelled from the specification:
the bus is full duplex, so one byte enters the receive FIFO for every
byte shifted out on the wire (the spec's simulated slave "echoes for
each clock"); bytes pushed with `send8` sit in the transmit FIFO until
the task suspends waiting for the bus interrupt, at which point the
hardware makes progress and shifts them out.  GPIO calls are recorded
as events rather than interpreted; pin levels are recovered by folding
the recorded event list.  The kernel primitives (`sys_recv_closed`) are
assumed reliable, and the unbounded Rust loops are run on an explicit
fuel, exhaustion of which is reported as the `incomplete` outcome.
-/

namespace SpiServer

abbrev Byte := Nat

/-- GPIO pin set: `PinSet` from the source (a port plus a pin mask). -/
structure PinSet where
  port : Nat
  pin_mask : Nat
  deriving Repr, DecidableEq

/-- `SpiMuxOption` from the source: output pin groups (pin set plus
alternate-function number), the single input pin, and the data-line
swap flag. -/
structure SpiMuxOption where
  outputs : List (PinSet × Nat)
  input : PinSet × Nat
  swap_data : Bool
  deriving Repr, DecidableEq

/-- `DeviceDescriptor` from the source. -/
structure DeviceDescriptor where
  mux_index : Nat
  cs : PinSet
  clock_divider : Nat
  deriving Repr, DecidableEq

/-- `ServerConfig` from the source (register pointer and RCC peripheral
name omitted: they never influence the behaviour modelled here). -/
structure ServerConfig where
  mux_options : List SpiMuxOption
  devices : List DeviceDescriptor
  deriving Repr, DecidableEq

/-- GPIO pin mode, as used by the `gpio_api::Mode` argument of
`configure`. -/
inductive GpioMode
  | input
  | output
  | alternate
  deriving Repr, DecidableEq

/-- Hardware operations the server performs, in program order.  Each
constructor corresponds to one call the Rust code makes into the GPIO
driver or the SPI block driver. -/
inductive Event
  | setReset (port setMask resetMask : Nat)
  | configure (port mask : Nat) (mode : GpioMode) (af : Nat)
  | setDataLineSwap (b : Bool)
  | spiEnable (len div : Nat)
  | spiStart
  | enableTransferInterrupts
  | clearEot
  | disableCanTxInterrupt
  | send (b : Byte)
  | recv (b : Byte)
  | waitIrq
  | spiEnd
  deriving Repr, DecidableEq

/-- `SpiError` from the `drv-spi-api` crate: the three client-visible
protocol errors. -/
inductive SpiError
  | BadDevice
  | BadTransferSize
  | NothingToRelease
  deriving Repr, DecidableEq

/-- Conditions on which the Rust task panics (halts) after request
validation has begun: `noDirection` is the `panic!()` for a request
with neither lease, `excessRx` the `panic!()` when a receive byte is
available although `rx_count` already equals `overall_len`, `overrun`
the `panic!()` on a detected FIFO overrun at the no-progress point,
`lockAssert` the `assert!` that the sender owns the lock, and
`indexOob` a panicking slice index (`CONFIG.mux_options[..]` or
`CONFIG.devices[..]`). -/
inductive Fatal
  | noDirection
  | excessRx
  | overrun
  | lockAssert
  | indexOob
  deriving Repr, DecidableEq

/-- Result of one request as observed by the caller: `ok`, a returned
protocol error, a task halt (panic), or `incomplete` when the modelled
loops did not finish within the fuel bound (the Rust task would still
be blocked inside the call). -/
inductive Outcome
  | ok
  | err (e : SpiError)
  | fatal (f : Fatal)
  | incomplete
  deriving Repr, DecidableEq

/-- `SpiOperation` from the API crate (only used for tracing in the
source). -/
inductive SpiOperation
  | read
  | write
  | exchange
  deriving Repr, DecidableEq

/-- `CsState` from the API crate. -/
inductive CsState
  | asserted
  | deasserted
  deriving Repr, DecidableEq

/-- `LockState` from the source. -/
structure LockState where
  task : Nat
  device_index : Nat
  deriving Repr, DecidableEq

/-- The mutable server state (`ServerImpl` minus the hardware handles,
which are modelled separately). -/
structure Server where
  lock_holder : Option LockState
  current_mux_index : Nat
  deriving Repr, DecidableEq

/-- State of the SPI block hardware, modelled from the spec.  `txFifo`
holds bytes pushed by `send8` but not yet shifted onto the wire,
`rxFifo` bytes the task may `recv8`, `shifted` everything transmitted
on the wire so far (oldest first), `overrun` the sticky overrun status
flag, and `fifoCap` the true transmit FIFO capacity of the part. -/
structure HwState where
  fifoCap : Nat
  txFifo : List Byte
  rxFifo : List Byte
  shifted : List Byte
  overrun : Bool
  deriving Repr, DecidableEq

/-- `can_tx_frame`: the transmit FIFO has room for another byte. -/
def canTxFrame (hw : HwState) : Bool :=
  hw.txFifo.length < hw.fifoCap

/-- `can_rx_byte`: the receive FIFO is nonempty. -/
def canRxByte (hw : HwState) : Bool :=
  !hw.rxFifo.isEmpty

/-- Responses of the attached slave, one per wire clock: the byte
echoed for the `i`-th shifted byte `b` is `slave i b`. -/
def slaveResponses (slave : Nat → Byte → Byte) : Nat → List Byte → List Byte
  | _, [] => []
  | base, b :: rest => slave base b :: slaveResponses slave (base + 1) rest

/-- Hardware progress while the task is suspended on the bus
interrupt: all pending transmit-FIFO bytes are shifted out on the wire
and, the bus being full duplex, one slave response per shifted byte
enters the receive FIFO. -/
def hwEcho (slave : Nat → Byte → Byte) (hw : HwState) : HwState :=
  { hw with
    txFifo := []
    shifted := hw.shifted ++ hw.txFifo
    rxFifo := hw.rxFifo ++ slaveResponses slave hw.shifted.length hw.txFifo }

/-- `check_eot`: the end-of-transaction flag, modelled as "the
transmit pipeline has fully drained". -/
def check_eot (hw : HwState) : Bool :=
  hw.txFifo.isEmpty

/-- Per-transfer pump state: the hardware, the optional source bytes
(`tx` reader present iff `hasTx`), the optional destination sink
(`hasRx`, capacity `dstCap`, bytes written so far `dst`), and the three
counters of the pump loop. -/
structure PumpState where
  hw : HwState
  hasTx : Bool
  src : List Byte
  hasRx : Bool
  dst : List Byte
  dstCap : Nat
  txPermits : Nat
  txCount : Nat
  rxCount : Nat
  deriving Repr, DecidableEq

/-- Snapshot of the three pump counters, recorded after every counter
mutation. -/
structure Ctr where
  permits : Nat
  tx : Nat
  rx : Nat
  deriving Repr, DecidableEq

/-- Output of one inner-loop phase of the pump. -/
structure PhaseOut where
  st : PumpState
  prog : Bool
  evs : List Event
  ctrs : List Ctr
  deriving Repr, DecidableEq

/-- Output of the receive phase, which can additionally hit the
`excessRx` panic. -/
structure RxOut where
  st : PumpState
  prog : Bool
  evs : List Event
  ctrs : List Ctr
  fatal : Option Fatal
  deriving Repr, DecidableEq

/-- The byte handed to `send8` for transmit position `i`:
`tx_reader.read().unwrap_or(0)`, i.e. the source byte or zero padding
past the end of the source. -/
def txByte (src : List Byte) (i : Nat) : Byte :=
  src.getD i 0

/-- The destination write `rx_reader.write(b).ok()`: the byte is
appended if a destination is present and has room, and silently
discarded otherwise. -/
def rxWrite (s : PumpState) (b : Byte) : List Byte :=
  if s.hasRx ∧ s.dst.length < s.dstCap then s.dst ++ [b] else s.dst

/-- Effect of one `send8` on the pump state: the byte for the current
transmit position enters the transmit FIFO, `tx_permits` drops to `p`
(the decremented budget) and `tx_count` advances. -/
def txStep (p : Nat) (s : PumpState) : PumpState :=
  { s with
    hw := { s.hw with txFifo := s.hw.txFifo ++ [txByte s.src s.txCount] }
    txPermits := p
    txCount := s.txCount + 1 }

/-- The transmit inner loop
`while tx_count < overall_len && tx_permits > 0 && can_tx_frame()`,
run with the permit budget as the structural recursion argument (the
caller passes `s.txPermits`, and every iteration decrements it). -/
def txPhaseGo (ol : Nat) : Nat → PumpState → PhaseOut
  | 0, s => { st := s, prog := false, evs := [], ctrs := [] }
  | p + 1, s =>
    if s.txCount < ol ∧ canTxFrame s.hw = true then
      { st := (txPhaseGo ol p (txStep p s)).st
        prog := true
        evs := Event.send (txByte s.src s.txCount) :: (txPhaseGo ol p (txStep p s)).evs
        ctrs := { permits := p, tx := s.txCount + 1, rx := s.rxCount } ::
          (txPhaseGo ol p (txStep p s)).ctrs }
    else
      { st := s, prog := false, evs := [], ctrs := [] }

/-- The transmit inner loop at the live permit count. -/
def txPhase (ol : Nat) (s : PumpState) : PhaseOut :=
  txPhaseGo ol s.txPermits s

/-- Effect of one `recv8` on the pump state: the byte leaves the
receive FIFO, `rx_count` advances, one transmit permit is restored,
and the byte is deposited in the destination (discarded when full). -/
def rxStep (rest : List Byte) (b : Byte) (s : PumpState) : PumpState :=
  { s with
    hw := { s.hw with rxFifo := rest }
    rxCount := s.rxCount + 1
    txPermits := s.txPermits + 1
    dst := rxWrite s b }

/-- The receive inner loop `while can_rx_byte()`, run with the receive
FIFO contents as the structural recursion argument (the caller passes
`s.hw.rxFifo`; no bytes can arrive while the loop runs, since the
hardware only progresses while the task is suspended).  A byte offered
when `rx_count` already equals `overall_len` is the `panic!()` at the
top of the loop body. -/
def rxPhaseGo (ol : Nat) : List Byte → PumpState → RxOut
  | [], s => { st := s, prog := false, evs := [], ctrs := [], fatal := none }
  | b :: rest, s =>
    if s.rxCount = ol then
      { st := s, prog := false, evs := [], ctrs := [], fatal := some Fatal.excessRx }
    else
      { st := (rxPhaseGo ol rest (rxStep rest b s)).st
        prog := true
        evs := Event.recv b :: (rxPhaseGo ol rest (rxStep rest b s)).evs
        ctrs := { permits := s.txPermits + 1, tx := s.txCount, rx := s.rxCount + 1 } ::
          (rxPhaseGo ol rest (rxStep rest b s)).ctrs
        fatal := (rxPhaseGo ol rest (rxStep rest b s)).fatal }

/-- The receive inner loop at the live receive FIFO. -/
def rxPhase (ol : Nat) (s : PumpState) : RxOut :=
  rxPhaseGo ol s.hw.rxFifo s

/-- Result of one pass of the outer pump loop: loop again immediately
(`next`), suspend on the interrupt — during which the hardware makes
progress — and loop (`waitThen`, the state already includes the
hardware progress), or panic (`fail`). -/
inductive IterRes
  | next (s : PumpState)
  | waitThen (s : PumpState)
  | fail (f : Fatal)
  deriving Repr, DecidableEq

/-- Tail of one outer-loop pass once the transmit output `t`, the
bookkeeping events `evs2` and the state `s2` are fixed: the receive
phase, then the progress-or-suspend decision with its overrun
check. -/
def pumpIterCore (slave : Nat → Byte → Byte) (ol : Nat) (t : PhaseOut)
    (evs2 : List Event) (s2 : PumpState) : IterRes × List Event × List Ctr :=
  match (rxPhase ol s2).fatal with
  | some f =>
    (IterRes.fail f, t.evs ++ evs2 ++ (rxPhase ol s2).evs, t.ctrs ++ (rxPhase ol s2).ctrs)
  | none =>
    if t.prog = true ∨ (rxPhase ol s2).prog = true then
      (IterRes.next (rxPhase ol s2).st, t.evs ++ evs2 ++ (rxPhase ol s2).evs,
       t.ctrs ++ (rxPhase ol s2).ctrs)
    else if (rxPhase ol s2).st.rxCount ≠ ol then
      if (rxPhase ol s2).st.hw.overrun = true then
        (IterRes.fail Fatal.overrun, t.evs ++ evs2 ++ (rxPhase ol s2).evs,
         t.ctrs ++ (rxPhase ol s2).ctrs)
      else
        (IterRes.waitThen { (rxPhase ol s2).st with hw := hwEcho slave (rxPhase ol s2).st.hw },
         t.evs ++ evs2 ++ (rxPhase ol s2).evs ++ [Event.waitIrq],
         t.ctrs ++ (rxPhase ol s2).ctrs)
    else
      (IterRes.next (rxPhase ol s2).st, t.evs ++ evs2 ++ (rxPhase ol s2).evs,
       t.ctrs ++ (rxPhase ol s2).ctrs)

/-- Continuation of one outer-loop pass after the transmit phase:
when a source reader was present (`hasTx0`) and `tx_count` has reached
`overall_len`, the reader is dropped and the transmit-ready interrupt
disabled; then the receive phase and the progress-or-suspend decision
run (`pumpIterCore`). -/
def pumpIterRest (slave : Nat → Byte → Byte) (ol : Nat) (hasTx0 : Bool) (t : PhaseOut) :
    IterRes × List Event × List Ctr :=
  if hasTx0 = true ∧ t.st.txCount = ol then
    pumpIterCore slave ol t [Event.disableCanTxInterrupt] { t.st with hasTx := false }
  else
    pumpIterCore slave ol t [] t.st

/-- One pass of the outer pump loop body: the transmit phase (when a
source reader is still present), then `pumpIterRest`. -/
def pumpIter (slave : Nat → Byte → Byte) (ol : Nat) (s : PumpState) :
    IterRes × List Event × List Ctr :=
  pumpIterRest slave ol s.hasTx
    (if s.hasTx then txPhase ol s else { st := s, prog := false, evs := [], ctrs := [] })

/-- Final status of the pump loop `while rx_count != overall_len`. -/
inductive PumpRes
  | done (s : PumpState)
  | outOfFuel
  | fail (f : Fatal)
  deriving Repr, DecidableEq

/-- Accumulated pump-loop output: status, hardware events in order,
and the counter snapshots in order. -/
structure PumpOut where
  res : PumpRes
  evs : List Event
  ctrs : List Ctr
  deriving Repr, DecidableEq

/-- The outer pump loop, on explicit fuel. -/
def pumpLoop (slave : Nat → Byte → Byte) (ol : Nat) : Nat → PumpState → PumpOut
  | 0, _ => { res := PumpRes.outOfFuel, evs := [], ctrs := [] }
  | fuel + 1, s =>
    if s.rxCount = ol then
      { res := PumpRes.done s, evs := [], ctrs := [] }
    else
      match pumpIter slave ol s with
      | (IterRes.fail f, evs, ctrs) => { res := PumpRes.fail f, evs := evs, ctrs := ctrs }
      | (IterRes.next s2, evs, ctrs) =>
        let k := pumpLoop slave ol fuel s2
        { res := k.res, evs := evs ++ k.evs, ctrs := ctrs ++ k.ctrs }
      | (IterRes.waitThen s2, evs, ctrs) =>
        let k := pumpLoop slave ol fuel s2
        { res := k.res, evs := evs ++ k.evs, ctrs := ctrs ++ k.ctrs }

/-- The end-of-transaction drain loop: suspend on the interrupt, then
check and clear the EOT flag, until the flag is observed set. -/
def drainWait (slave : Nat → Byte → Byte) : Nat → HwState → Option HwState × List Event
  | 0, _ => (none, [])
  | fuel + 1, hw =>
    let hw1 := hwEcho slave hw
    if check_eot hw1 then
      (some hw1, [Event.waitIrq, Event.clearEot])
    else
      let d := drainWait slave fuel hw1
      (d.fst, Event.waitIrq :: d.snd)

/-- `deactivate_mux_option`: drive every output pin low and force it to
GPIO output mode, then switch the input pin to a high-impedance GPIO
input. -/
def deactivate_outputs : List (PinSet × Nat) → List Event
  | [] => []
  | pa :: rest =>
    Event.setReset pa.fst.port 0 pa.fst.pin_mask ::
    Event.configure pa.fst.port pa.fst.pin_mask GpioMode.output 0 ::
    deactivate_outputs rest

/-- Events of `deactivate_mux_option`. -/
def deactivate_mux_option (opt : SpiMuxOption) : List Event :=
  deactivate_outputs opt.outputs ++
  [Event.configure opt.input.fst.port opt.input.fst.pin_mask GpioMode.input 0]

/-- `activate_mux_option` body for the output groups: switch each to
the SPI peripheral's alternate function. -/
def activate_outputs : List (PinSet × Nat) → List Event
  | [] => []
  | pa :: rest =>
    Event.configure pa.fst.port pa.fst.pin_mask GpioMode.alternate pa.snd ::
    activate_outputs rest

/-- Events of `activate_mux_option`: apply the data-line swap, switch
all outputs to the peripheral, then the input. -/
def activate_mux_option (opt : SpiMuxOption) : List Event :=
  Event.setDataLineSwap opt.swap_data ::
  activate_outputs opt.outputs ++
  [Event.configure opt.input.fst.port opt.input.fst.pin_mask GpioMode.alternate opt.input.snd]

/-- Result of one server call: the new server state, the new SPI
hardware state, the caller-visible outcome, the hardware events
performed, and the pump-counter snapshots. -/
structure CallOut where
  srv : Server
  hw : HwState
  out : Outcome
  evs : List Event
  ctrs : List Ctr
  deriving Repr, DecidableEq

/-- `ready_writey` after validation and mux routing: the priming
sequence (`spi.enable`, `spi.start`, `spi.enable_transfer_interrupts`,
`spi.clear_eot`, then the auto chip-select assert unless a lock is
held), the pump loop, the EOT drain, `spi.end`, and the auto
chip-select deassert unless a lock is held. -/
def ready_writey_primed (slave : Nat → Byte → Byte) (fuel : Nat)
    (device : DeviceDescriptor) (data_src : Option (List Byte)) (data_dest : Option Nat)
    (overall_len : Nat) (srv : Server) (hw : HwState) (muxEvts : List Event) : CallOut :=
  let primeEvts : List Event :=
    [Event.spiEnable overall_len device.clock_divider, Event.spiStart,
     Event.enableTransferInterrupts, Event.clearEot]
  let cs_override : Bool := srv.lock_holder.isSome
  let csPre : List Event :=
    if cs_override then [] else [Event.setReset device.cs.port 0 device.cs.pin_mask]
  let s0 : PumpState :=
    { hw := hw, hasTx := data_src.isSome, src := data_src.getD []
      hasRx := data_dest.isSome, dst := [], dstCap := data_dest.getD 0
      txPermits := 16, txCount := 0, rxCount := 0 }
  let p := pumpLoop slave overall_len fuel s0
  match p.res with
  | PumpRes.fail f =>
    { srv := srv, hw := hw, out := Outcome.fatal f
      evs := muxEvts ++ primeEvts ++ csPre ++ p.evs, ctrs := p.ctrs }
  | PumpRes.outOfFuel =>
    { srv := srv, hw := hw, out := Outcome.incomplete
      evs := muxEvts ++ primeEvts ++ csPre ++ p.evs, ctrs := p.ctrs }
  | PumpRes.done sEnd =>
    match drainWait slave fuel sEnd.hw with
    | (none, dEvs) =>
      { srv := srv, hw := sEnd.hw, out := Outcome.incomplete
        evs := muxEvts ++ primeEvts ++ csPre ++ p.evs ++ dEvs, ctrs := p.ctrs }
    | (some hw2, dEvs) =>
      let csPost : List Event :=
        if cs_override then [] else [Event.setReset device.cs.port device.cs.pin_mask 0]
      { srv := srv, hw := hw2, out := Outcome.ok
        evs := muxEvts ++ primeEvts ++ csPre ++ p.evs ++ dEvs ++ [Event.spiEnd] ++ csPost
        ctrs := p.ctrs }

/-- `ready_writey` after validation: switch the mux to the requested
port when the device's mux index differs from the current one
(deactivate the old option, activate the new one, record the new
index), then prime and pump. -/
def ready_writey_commit (cfg : ServerConfig) (slave : Nat → Byte → Byte) (fuel : Nat)
    (device : DeviceDescriptor) (data_src : Option (List Byte)) (data_dest : Option Nat)
    (overall_len : Nat) (srv : Server) (hw : HwState) : CallOut :=
  if device.mux_index ≠ srv.current_mux_index then
    match cfg.mux_options.get? srv.current_mux_index, cfg.mux_options.get? device.mux_index with
    | some oldOpt, some newOpt =>
      ready_writey_primed slave fuel device data_src data_dest overall_len
        { srv with current_mux_index := device.mux_index } hw
        (deactivate_mux_option oldOpt ++ activate_mux_option newOpt)
    | _, _ =>
      { srv := srv, hw := hw, out := Outcome.fatal Fatal.indexOob, evs := [], ctrs := [] }
  else
    ready_writey_primed slave fuel device data_src data_dest overall_len srv hw []

/-- `ready_writey` after the lock-compatibility check: reject
out-of-range devices, halt on a request with neither lease, reject a
zero overall length, then commit. -/
def ready_writey_validated (cfg : ServerConfig) (slave : Nat → Byte → Byte) (fuel : Nat)
    (device_index : Nat) (data_src : Option (List Byte)) (data_dest : Option Nat)
    (srv : Server) (hw : HwState) : CallOut :=
  match cfg.devices.get? device_index with
  | none => { srv := srv, hw := hw, out := Outcome.err SpiError.BadDevice, evs := [], ctrs := [] }
  | some device =>
    if data_src.isNone && data_dest.isNone then
      { srv := srv, hw := hw, out := Outcome.fatal Fatal.noDirection, evs := [], ctrs := [] }
    else
      let src_len := (data_src.getD []).length
      let dest_len := data_dest.getD 0
      let overall_len := max src_len dest_len
      if overall_len = 0 then
        { srv := srv, hw := hw, out := Outcome.err SpiError.BadTransferSize, evs := [], ctrs := [] }
      else
        ready_writey_commit cfg slave fuel device data_src data_dest overall_len srv hw

/-- `ready_writey`: if a lock is held, a request addressing any other
device is rejected with `BadDevice` before anything else happens. -/
def ready_writey (cfg : ServerConfig) (slave : Nat → Byte → Byte) (fuel : Nat)
    (_op : SpiOperation) (device_index : Nat)
    (data_src : Option (List Byte)) (data_dest : Option Nat)
    (srv : Server) (hw : HwState) : CallOut :=
  match srv.lock_holder with
  | some ls =>
    if ls.device_index ≠ device_index then
      { srv := srv, hw := hw, out := Outcome.err SpiError.BadDevice, evs := [], ctrs := [] }
    else
      ready_writey_validated cfg slave fuel device_index data_src data_dest srv hw
  | none => ready_writey_validated cfg slave fuel device_index data_src data_dest srv hw

/-- The `read` server stub: destination lease only. -/
def read (cfg : ServerConfig) (slave : Nat → Byte → Byte) (fuel : Nat)
    (device_index : Nat) (destLen : Nat) (srv : Server) (hw : HwState) : CallOut :=
  ready_writey cfg slave fuel SpiOperation.read device_index none (some destLen) srv hw

/-- The `write` server stub: source lease only. -/
def write (cfg : ServerConfig) (slave : Nat → Byte → Byte) (fuel : Nat)
    (device_index : Nat) (src : List Byte) (srv : Server) (hw : HwState) : CallOut :=
  ready_writey cfg slave fuel SpiOperation.write device_index (some src) none srv hw

/-- The `exchange` server stub: both leases. -/
def exchange (cfg : ServerConfig) (slave : Nat → Byte → Byte) (fuel : Nat)
    (device_index : Nat) (src : List Byte) (destLen : Nat) (srv : Server) (hw : HwState) : CallOut :=
  ready_writey cfg slave fuel SpiOperation.exchange device_index (some src) (some destLen) srv hw

/-- Shared tail of `lock` once the locked-state rules have passed:
validate the device index, drive chip-select per the requested state
(asserted = pin driven low, i.e. reset; deasserted = set), and record
the lock holder. -/
def lock_rest (cfg : ServerConfig) (sender devidx : Nat) (cs_asserted : Bool)
    (srv : Server) : Server × Outcome × List Event :=
  match cfg.devices.get? devidx with
  | none => (srv, Outcome.err SpiError.BadDevice, [])
  | some device =>
    let pin_mask := device.cs.pin_mask
    ({ srv with lock_holder := some { task := sender, device_index := devidx } },
     Outcome.ok,
     [Event.setReset device.cs.port
        (if cs_asserted then 0 else pin_mask)
        (if cs_asserted then pin_mask else 0)])

/-- The `lock` operation.  While locked, the sender must be the holder
(enforced by the receive filter and double-checked by an `assert!`,
modelled as the `lockAssert` halt) and may not change the device
index. -/
def lock (cfg : ServerConfig) (sender devidx : Nat) (cs_state : CsState)
    (srv : Server) : Server × Outcome × List Event :=
  let cs_asserted : Bool := cs_state == CsState.asserted
  match srv.lock_holder with
  | some ls =>
    if ls.task ≠ sender then (srv, Outcome.fatal Fatal.lockAssert, [])
    else if ls.device_index ≠ devidx then (srv, Outcome.err SpiError.BadDevice, [])
    else lock_rest cfg sender devidx cs_asserted srv
  | none => lock_rest cfg sender devidx cs_asserted srv

/-- The `release` operation: with no lock held, `NothingToRelease`;
otherwise deassert (set) the locked device's chip-select and clear the
lock. -/
def release (cfg : ServerConfig) (sender : Nat) (srv : Server) :
    Server × Outcome × List Event :=
  match srv.lock_holder with
  | some ls =>
    if ls.task ≠ sender then (srv, Outcome.fatal Fatal.lockAssert, [])
    else
      match cfg.devices.get? ls.device_index with
      | none => (srv, Outcome.fatal Fatal.indexOob, [])
      | some device =>
        ({ srv with lock_holder := none }, Outcome.ok,
         [Event.setReset device.cs.port device.cs.pin_mask 0])
  | none => (srv, Outcome.err SpiError.NothingToRelease, [])

/-- `closed_recv_fail`: the locked caller's channel was observed
closed, so the lock is released.  No hardware operation is performed
(the function touches only the server state). -/
def closed_recv_fail (srv : Server) : Server :=
  { srv with lock_holder := none }

/-- Startup configuration of one device's chip-select pin in `main`:
deassert (set) it and leave it in GPIO output mode. -/
def startup_device_events : List DeviceDescriptor → List Event
  | [] => []
  | d :: rest =>
    Event.setReset d.cs.port d.cs.pin_mask 0 ::
    Event.configure d.cs.port d.cs.pin_mask GpioMode.output 1 ::
    startup_device_events rest

/-- Deactivation of every mux option in a list (startup deactivates
all non-default options). -/
def deactivate_all : List SpiMuxOption → List Event
  | [] => []
  | o :: rest => deactivate_mux_option o ++ deactivate_all rest

/-- Hardware events of `main`'s startup: configure all chip-selects
deasserted, deactivate every non-default mux option, then activate
option 0. -/
def startup_events (cfg : ServerConfig) : List Event :=
  startup_device_events cfg.devices ++
  deactivate_all (cfg.mux_options.drop 1) ++
  (match cfg.mux_options.get? 0 with
   | some opt => activate_mux_option opt
   | none => [])

/-- The server state right after startup. -/
def server_init : Server :=
  { lock_holder := none, current_mux_index := 0 }

/-- GPIO output levels, one mask of driven-high bits per port. -/
abbrev Pins := Nat → Nat

/-- Bitwise `x AND NOT m` on `Nat`. -/
def andNot (x m : Nat) : Nat :=
  x ^^^ (x &&& m)

/-- Effect of one recorded event on the pin levels (only `set_reset`
changes levels). -/
def applyEvent (pins : Pins) : Event → Pins
  | Event.setReset port setMask resetMask =>
    fun p => if p = port then andNot (pins p ||| setMask) resetMask else pins p
  | _ => pins

/-- Fold a recorded event list over the pin levels. -/
def applyEvents (pins : Pins) : List Event → Pins
  | [] => pins
  | e :: rest => applyEvents (applyEvent pins e) rest

/-- Chip-select is active low: the device is deasserted when its CS
pin is high. -/
def csDeasserted (pins : Pins) (d : DeviceDescriptor) : Bool :=
  pins d.cs.port &&& d.cs.pin_mask ≠ 0

/-- The pin levels with every output low (reset state before
startup). -/
def pinsZero : Pins :=
  fun _ => 0

/-! ## Invariants of the pump loop -/

/-- Events the pump loop itself can emit. -/
def isPumpEvent : Event → Bool
  | Event.send _ => true
  | Event.recv _ => true
  | Event.disableCanTxInterrupt => true
  | Event.waitIrq => true
  | _ => false

/-- The counter relation of the pump loop: `tx_permits` is exactly the
initial budget 16 minus the transmit lead, and neither counter passes
`overall_len`. -/
def CtrInv (ol : Nat) (c : Ctr) : Prop :=
  c.permits + c.tx = 16 + c.rx ∧ c.tx ≤ ol ∧ c.rx ≤ ol

/-- The same relation on a live pump state. -/
def SInv (ol : Nat) (s : PumpState) : Prop :=
  s.txPermits + s.txCount = 16 + s.rxCount ∧ s.txCount ≤ ol ∧ s.rxCount ≤ ol

/-- Conservation invariant on clean hardware: every transmitted byte
is still in the transmit FIFO, in flight in the receive FIFO, or
already counted by `rx_count`; the overrun flag is clear. -/
def SafeInv (ol : Nat) (s : PumpState) : Prop :=
  s.rxCount + s.hw.rxFifo.length + s.hw.txFifo.length = s.txCount ∧
  s.txCount ≤ ol ∧ s.hw.overrun = false

/-- Full invariant used for the completion proof. -/
def CleanInv (ol cap : Nat) (s : PumpState) : Prop :=
  s.txPermits + s.txCount = 16 + s.rxCount ∧
  s.txCount ≤ ol ∧
  s.rxCount + s.hw.rxFifo.length + s.hw.txFifo.length = s.txCount ∧
  s.hw.overrun = false ∧
  s.hw.fifoCap = cap ∧ 1 ≤ cap ∧ s.hw.txFifo.length ≤ cap ∧
  (s.hasTx = false → s.txCount = ol)

/-- Termination measure for the pump loop: strictly decreases on every
pass of the outer loop while `rx_count ≠ overall_len`. -/
def pumpMeasure (ol : Nat) (s : PumpState) : Nat :=
  2 * (ol - s.rxCount) + (ol - s.txCount) +
    (if s.hw.rxFifo.length = 0 then 1 else 0)

/-- A request's device index is compatible with the lock state (no
lock held, or the lock is for this very device). -/
def lockCompat (srv : Server) (device_index : Nat) : Prop :=
  ∀ ls, srv.lock_holder = some ls → ls.device_index = device_index

/-- Does an event drive or release pins overlapping the given pin set?
Only `set_reset` events change pin levels. -/
def touchesPinSet (ps : PinSet) : Event → Bool
  | Event.setReset port setMask resetMask =>
    decide (port = ps.port) && decide ((setMask ||| resetMask) &&& ps.pin_mask ≠ 0)
  | _ => false

/-- Is an event part of mux-option switching (pin reconfiguration or
the data-line swap)? -/
def isMuxEvent : Event → Bool
  | Event.configure _ _ _ _ => true
  | Event.setDataLineSwap _ => true
  | _ => false

/-- No mux option routes over pins that overlap the device's
chip-select pin (electrical sanity of a board configuration). -/
def muxCsDisjoint (cfg : ServerConfig) (d : DeviceDescriptor) : Prop :=
  ∀ opt ∈ cfg.mux_options, ∀ pa ∈ opt.outputs,
    pa.fst.port = d.cs.port → pa.fst.pin_mask &&& d.cs.pin_mask = 0

/-- Modelled from the spec: the priming order of §4.4 — enable the bus
for `overall_len` bytes at the device's clock divider, start the
transaction, clear any pending end-of-transaction flag, enable
transfer interrupts, then (only without a lock) assert chip-select. -/
def spec_priming_events (overall_len div port mask : Nat) (locked : Bool) : List Event :=
  [Event.spiEnable overall_len div, Event.spiStart, Event.clearEot,
   Event.enableTransferInterrupts] ++
  (if locked then [] else [Event.setReset port 0 mask])

/-- Example slave that echoes every byte it is clocked. -/
def slaveEcho : Nat → Byte → Byte :=
  fun _ b => b

/-- Example hardware at rest: empty FIFOs, no overrun, FIFO depth 16. -/
def hw0 : HwState :=
  { fifoCap := 16, txFifo := [], rxFifo := [], shifted := [], overrun := false }

/-- Example hardware with two stale bytes left in the receive FIFO. -/
def hwStale : HwState :=
  { fifoCap := 16, txFifo := [], rxFifo := [9, 9], shifted := [], overrun := false }

/-- Example server state: unlocked, mux option 0 current. -/
def srv0 : Server :=
  { lock_holder := none, current_mux_index := 0 }

/-- Example server state: task 7 holds the lock on device 1. -/
def srvLocked1 : Server :=
  { lock_holder := some { task := 7, device_index := 1 }, current_mux_index := 0 }

/-- Example mux option 0: clock and data-out on port 1 pins 0/1, data
in on port 1 pin 2, all at alternate function 5, no swap. -/
def muxOpt0 : SpiMuxOption :=
  { outputs := [({ port := 1, pin_mask := 3 }, 5)]
    input := ({ port := 1, pin_mask := 4 }, 5)
    swap_data := false }

/-- Example mux option 1: the same shape routed over port 2, with the
data lines swapped. -/
def muxOpt1 : SpiMuxOption :=
  { outputs := [({ port := 2, pin_mask := 3 }, 5)]
    input := ({ port := 2, pin_mask := 4 }, 5)
    swap_data := true }

/-- Example device 0: mux option 0, chip select on port 0 pin 2. -/
def dev0 : DeviceDescriptor :=
  { mux_index := 0, cs := { port := 0, pin_mask := 4 }, clock_divider := 7 }

/-- Example device 1: mux option 1, chip select on port 0 pin 3. -/
def dev1 : DeviceDescriptor :=
  { mux_index := 1, cs := { port := 0, pin_mask := 8 }, clock_divider := 7 }

/-- Example configuration with two devices on two mux options. -/
def cfgC : ServerConfig :=
  { mux_options := [muxOpt0, muxOpt1], devices := [dev0, dev1] }

/-- A `read` from the lock holder targeting the locked device passes
validation but never completes: with no source lease nothing is ever
pushed into the transmit FIFO, so the full-duplex bus never clocks and
no receive byte can ever arrive, for any fuel bound. -/
def lockedReadNeverCompletes : Prop :=
  ∀ fuel : Nat, (read cfgC slaveEcho fuel 1 1 srvLocked1 hw0).out = Outcome.incomplete

/-- A plain unlocked `read` on a valid device never completes either:
the concrete failing input for the transfer-delivery claim. -/
def readNeverCompletes : Prop :=
  ∀ fuel : Nat, (read cfgC slaveEcho fuel 0 1 srv0 hw0).out = Outcome.incomplete

/-- Everything the transmit phase guarantees, relative to its entry
state: `k` is the number of bytes pushed this pass. -/
def TxPost (ol : Nat) (s : PumpState) (r : PhaseOut) : Prop :=
  ∃ k : Nat,
    r.st.txCount = s.txCount + k ∧
    r.st.txPermits + k = s.txPermits ∧
    r.st.rxCount = s.rxCount ∧
    r.st.hasTx = s.hasTx ∧
    r.st.hasRx = s.hasRx ∧
    r.st.src = s.src ∧
    r.st.dstCap = s.dstCap ∧
    r.st.hw.rxFifo = s.hw.rxFifo ∧
    r.st.hw.overrun = s.hw.overrun ∧
    r.st.hw.fifoCap = s.hw.fifoCap ∧
    r.st.hw.txFifo.length = s.hw.txFifo.length + k ∧
    (0 < k → s.txCount + k ≤ ol) ∧
    (r.prog = true ↔ 0 < k) ∧
    ¬ (r.st.txCount < ol ∧ 0 < r.st.txPermits ∧ canTxFrame r.st.hw = true) ∧
    (s.hw.txFifo.length ≤ s.hw.fifoCap → r.st.hw.txFifo.length ≤ s.hw.fifoCap) ∧
    (∀ c ∈ r.ctrs, c.permits + c.tx = s.txPermits + s.txCount ∧ c.rx = s.rxCount ∧ c.tx ≤ ol) ∧
    (∀ e ∈ r.evs, ∃ b, e = Event.send b)

@[simp] theorem txStep_hw_txFifo (p : Nat) (s : PumpState) :
    (txStep p s).hw.txFifo = s.hw.txFifo ++ [txByte s.src s.txCount] := rfl

@[simp] theorem txStep_hw_rxFifo (p : Nat) (s : PumpState) :
    (txStep p s).hw.rxFifo = s.hw.rxFifo := rfl

@[simp] theorem txStep_hw_overrun (p : Nat) (s : PumpState) :
    (txStep p s).hw.overrun = s.hw.overrun := rfl

@[simp] theorem txStep_hw_fifoCap (p : Nat) (s : PumpState) :
    (txStep p s).hw.fifoCap = s.hw.fifoCap := rfl

@[simp] theorem txStep_hw_shifted (p : Nat) (s : PumpState) :
    (txStep p s).hw.shifted = s.hw.shifted := rfl

@[simp] theorem txStep_txPermits (p : Nat) (s : PumpState) :
    (txStep p s).txPermits = p := rfl

@[simp] theorem txStep_txCount (p : Nat) (s : PumpState) :
    (txStep p s).txCount = s.txCount + 1 := rfl

@[simp] theorem txStep_rxCount (p : Nat) (s : PumpState) :
    (txStep p s).rxCount = s.rxCount := rfl

@[simp] theorem txStep_hasTx (p : Nat) (s : PumpState) :
    (txStep p s).hasTx = s.hasTx := rfl

@[simp] theorem txStep_hasRx (p : Nat) (s : PumpState) :
    (txStep p s).hasRx = s.hasRx := rfl

@[simp] theorem txStep_src (p : Nat) (s : PumpState) :
    (txStep p s).src = s.src := rfl

@[simp] theorem txStep_dstCap (p : Nat) (s : PumpState) :
    (txStep p s).dstCap = s.dstCap := rfl

@[simp] theorem rxStep_hw_rxFifo (rest : List Byte) (b : Byte) (s : PumpState) :
    (rxStep rest b s).hw.rxFifo = rest := rfl

@[simp] theorem rxStep_hw_txFifo (rest : List Byte) (b : Byte) (s : PumpState) :
    (rxStep rest b s).hw.txFifo = s.hw.txFifo := rfl

@[simp] theorem rxStep_hw_overrun (rest : List Byte) (b : Byte) (s : PumpState) :
    (rxStep rest b s).hw.overrun = s.hw.overrun := rfl

@[simp] theorem rxStep_hw_fifoCap (rest : List Byte) (b : Byte) (s : PumpState) :
    (rxStep rest b s).hw.fifoCap = s.hw.fifoCap := rfl

@[simp] theorem rxStep_hw_shifted (rest : List Byte) (b : Byte) (s : PumpState) :
    (rxStep rest b s).hw.shifted = s.hw.shifted := rfl

@[simp] theorem rxStep_txPermits (rest : List Byte) (b : Byte) (s : PumpState) :
    (rxStep rest b s).txPermits = s.txPermits + 1 := rfl

@[simp] theorem rxStep_txCount (rest : List Byte) (b : Byte) (s : PumpState) :
    (rxStep rest b s).txCount = s.txCount := rfl

@[simp] theorem rxStep_rxCount (rest : List Byte) (b : Byte) (s : PumpState) :
    (rxStep rest b s).rxCount = s.rxCount + 1 := rfl

@[simp] theorem rxStep_hasTx (rest : List Byte) (b : Byte) (s : PumpState) :
    (rxStep rest b s).hasTx = s.hasTx := rfl

@[simp] theorem rxStep_hasRx (rest : List Byte) (b : Byte) (s : PumpState) :
    (rxStep rest b s).hasRx = s.hasRx := rfl

@[simp] theorem rxStep_src (rest : List Byte) (b : Byte) (s : PumpState) :
    (rxStep rest b s).src = s.src := rfl

@[simp] theorem rxStep_dstCap (rest : List Byte) (b : Byte) (s : PumpState) :
    (rxStep rest b s).dstCap = s.dstCap := rfl

/-- Everything the receive phase guarantees, relative to its entry
state.  The counter and event facts hold on every path, including the
one ending in the `excessRx` panic; the state facts hold whenever the
phase did not panic, in which case it drained the whole receive
FIFO. -/
def RxPost (ol : Nat) (s : PumpState) (r : RxOut) : Prop :=
  (∀ c ∈ r.ctrs, c.permits + s.rxCount = s.txPermits + c.rx ∧ c.tx = s.txCount ∧ c.rx ≤ ol) ∧
  (∀ e ∈ r.evs, ∃ b, e = Event.recv b) ∧
  (r.fatal = none ↔ s.rxCount + s.hw.rxFifo.length ≤ ol) ∧
  (r.fatal = none →
    r.st.rxCount = s.rxCount + s.hw.rxFifo.length ∧
    r.st.txPermits = s.txPermits + s.hw.rxFifo.length ∧
    r.st.txCount = s.txCount ∧
    r.st.hasTx = s.hasTx ∧
    r.st.hasRx = s.hasRx ∧
    r.st.src = s.src ∧
    r.st.dstCap = s.dstCap ∧
    r.st.hw.rxFifo = [] ∧
    r.st.hw.txFifo = s.hw.txFifo ∧
    r.st.hw.overrun = s.hw.overrun ∧
    r.st.hw.fifoCap = s.hw.fifoCap ∧
    (r.prog = true ↔ 0 < s.hw.rxFifo.length))

theorem slaveResponses_length (slave : Nat → Byte → Byte) :
    ∀ (base : Nat) (l : List Byte), (slaveResponses slave base l).length = l.length := by
  intro base l
  induction l generalizing base with
  | nil => rfl
  | cons b rest ih => simp [slaveResponses, ih]

theorem hwEcho_of_txFifo_nil (slave : Nat → Byte → Byte) (hw : HwState)
    (h : hw.txFifo = []) : hwEcho slave hw = hw := by
  cases hw
  simp_all [hwEcho, slaveResponses]

theorem txPhaseGo_spec (ol : Nat) :
    ∀ (p : Nat) (s : PumpState), s.txPermits = p → TxPost ol s (txPhaseGo ol p s) := by
  intro p
  induction p with
  | zero =>
    intro s hp
    unfold TxPost
    refine ⟨0, ?_, ?_, ?_, ?_, ?_, ?_, ?_, ?_, ?_, ?_, ?_, ?_, ?_, ?_, ?_, ?_, ?_⟩ <;>
      simp [txPhaseGo, hp]
  | succ p ih =>
    intro s hp
    by_cases hc : s.txCount < ol ∧ canTxFrame s.hw = true
    · obtain ⟨k1, h1, h2, h3, h4, h5, h6, h7, h8, h9, h10, h11, h12, h13, h14, h15, h16, h17⟩ :=
        ih (txStep p s) rfl
      simp only [txStep_txCount, txStep_txPermits, txStep_rxCount, txStep_hasTx, txStep_hasRx,
        txStep_src, txStep_dstCap, txStep_hw_rxFifo, txStep_hw_overrun, txStep_hw_fifoCap,
        txStep_hw_txFifo, List.length_append, List.length_cons, List.length_nil]
        at h1 h2 h3 h4 h5 h6 h7 h8 h9 h10 h11 h12 h15 h16
      have hlen : s.hw.txFifo.length < s.hw.fifoCap := by
        have := hc.2
        simpa [canTxFrame] using this
      have hc1 := hc.1
      unfold TxPost
      simp only [txPhaseGo, if_pos hc]
      refine ⟨k1 + 1, by omega, by omega, h3, h4, h5, h6, h7, h8, h9, h10, by omega,
        ?_, by simp, h14, ?_, ?_, ?_⟩
      · intro _
        rcases Nat.eq_zero_or_pos k1 with hk | hk
        · omega
        · have := h12 hk
          omega
      · intro hcap
        have := h15 (by omega)
        omega
      · intro c hc2
        rcases List.mem_cons.mp hc2 with hh | ht
        · subst hh
          exact ⟨by simp only; omega, rfl, by simp only; omega⟩
        · obtain ⟨q1, q2, q3⟩ := h16 c ht
          exact ⟨by omega, q2, q3⟩
      · intro e he
        rcases List.mem_cons.mp he with hh | ht
        · exact ⟨_, hh⟩
        · exact h17 e ht
    · unfold TxPost
      have hexit : ¬((txPhaseGo ol (p + 1) s).st.txCount < ol ∧
          0 < (txPhaseGo ol (p + 1) s).st.txPermits ∧
          canTxFrame (txPhaseGo ol (p + 1) s).st.hw = true) := by
        simp only [txPhaseGo, if_neg hc]
        rintro ⟨a, -, c⟩
        exact hc ⟨a, c⟩
      refine ⟨0, ?_, ?_, ?_, ?_, ?_, ?_, ?_, ?_, ?_, ?_, ?_, ?_, ?_, hexit, ?_, ?_, ?_⟩ <;>
        simp [txPhaseGo, if_neg hc]

theorem rxPhaseGo_spec (ol : Nat) :
    ∀ (fifo : List Byte) (s : PumpState), s.hw.rxFifo = fifo → s.rxCount ≤ ol →
      RxPost ol s (rxPhaseGo ol fifo s) := by
  intro fifo
  induction fifo with
  | nil =>
    intro s hsync hrc
    unfold RxPost
    refine ⟨?_, ?_, ?_, ?_⟩ <;> simp [rxPhaseGo, hsync, hrc]
  | cons b rest ih =>
    intro s hsync hrc
    by_cases hq : s.rxCount = ol
    · unfold RxPost
      simp only [rxPhaseGo, if_pos hq]
      have hlen : ¬(s.rxCount + s.hw.rxFifo.length ≤ ol) := by
        rw [hsync]
        simp only [List.length_cons]
        omega
      refine ⟨by simp, by simp, ?_, ?_⟩
      · exact ⟨fun h => by simp at h, fun h => absurd h hlen⟩
      · intro h
        simp at h
    · have hrc1 : (rxStep rest b s).rxCount ≤ ol := by
        simp only [rxStep_rxCount]
        omega
      obtain ⟨ihc, ihe, ihf, ihm⟩ := ih (rxStep rest b s) rfl hrc1
      simp only [rxStep_rxCount, rxStep_txPermits, rxStep_txCount, rxStep_hasTx, rxStep_hasRx,
        rxStep_src, rxStep_dstCap, rxStep_hw_rxFifo, rxStep_hw_txFifo, rxStep_hw_overrun,
        rxStep_hw_fifoCap] at ihc ihf ihm
      unfold RxPost
      simp only [rxPhaseGo, if_neg hq]
      refine ⟨?_, ?_, ?_, ?_⟩
      · intro c hc2
        rcases List.mem_cons.mp hc2 with hh | ht
        · subst hh
          exact ⟨by simp only; omega, rfl, by simp only; omega⟩
        · obtain ⟨q1, q2, q3⟩ := ihc c ht
          exact ⟨by omega, q2, q3⟩
      · intro e he
        rcases List.mem_cons.mp he with hh | ht
        · exact ⟨_, hh⟩
        · exact ihe e ht
      · rw [hsync]
        simp only [List.length_cons]
        rw [ihf]
        constructor <;> intro <;> omega
      · intro hfn
        obtain ⟨m1, m2, m3, m4, m5, m6, m7, m8, m9, m10, m11, m12⟩ := ihm hfn
        rw [hsync]
        simp only [List.length_cons]
        exact ⟨by omega, by omega, m3, m4, m5, m6, m7, m8, m9, m10, m11, by simp⟩

@[simp] theorem hwEcho_txFifo (slave : Nat → Byte → Byte) (hw : HwState) :
    (hwEcho slave hw).txFifo = [] := rfl

@[simp] theorem hwEcho_overrun (slave : Nat → Byte → Byte) (hw : HwState) :
    (hwEcho slave hw).overrun = hw.overrun := rfl

@[simp] theorem hwEcho_fifoCap (slave : Nat → Byte → Byte) (hw : HwState) :
    (hwEcho slave hw).fifoCap = hw.fifoCap := rfl

@[simp] theorem hwEcho_rxFifo_length (slave : Nat → Byte → Byte) (hw : HwState) :
    (hwEcho slave hw).rxFifo.length = hw.rxFifo.length + hw.txFifo.length := by
  simp [hwEcho, slaveResponses_length]

theorem canTxFrame_iff (hw : HwState) :
    canTxFrame hw = true ↔ hw.txFifo.length < hw.fifoCap := by
  simp [canTxFrame]

theorem txPhase_spec (ol : Nat) (s : PumpState) : TxPost ol s (txPhase ol s) :=
  txPhaseGo_spec ol s.txPermits s rfl

theorem rxPhase_spec (ol : Nat) (s : PumpState) (hrc : s.rxCount ≤ ol) :
    RxPost ol s (rxPhase ol s) :=
  rxPhaseGo_spec ol s.hw.rxFifo s rfl hrc

theorem rxPhaseGo_evs (ol : Nat) :
    ∀ (fifo : List Byte) (s : PumpState), ∀ e ∈ (rxPhaseGo ol fifo s).evs,
      ∃ b, e = Event.recv b := by
  intro fifo
  induction fifo with
  | nil =>
    intro s e he
    simp [rxPhaseGo] at he
  | cons b rest ih =>
    intro s e he
    by_cases hq : s.rxCount = ol
    · simp [rxPhaseGo, if_pos hq] at he
    · simp only [rxPhaseGo, if_neg hq] at he
      rcases List.mem_cons.mp he with hh | ht
      · exact ⟨_, hh⟩
      · exact ih _ e ht

theorem rxPhase_evs (ol : Nat) (s : PumpState) :
    ∀ e ∈ (rxPhase ol s).evs, ∃ b, e = Event.recv b :=
  rxPhaseGo_evs ol s.hw.rxFifo s

/-- Exhaustive description of the tail of one outer-loop pass: it
either fails (on a receive-phase panic or a detected overrun at the
no-progress point), loops again after progress, or suspends on the
interrupt, during which the hardware echoes the transmit FIFO. -/
theorem pumpIterCore_cases (slave : Nat → Byte → Byte) (ol : Nat) (t : PhaseOut)
    (evs2 : List Event) (s2 : PumpState) :
    (∃ f, pumpIterCore slave ol t evs2 s2 =
        (IterRes.fail f, t.evs ++ evs2 ++ (rxPhase ol s2).evs,
          t.ctrs ++ (rxPhase ol s2).ctrs) ∧
      ((rxPhase ol s2).fatal = some f ∨
        (f = Fatal.overrun ∧ (rxPhase ol s2).st.hw.overrun = true))) ∨
    (pumpIterCore slave ol t evs2 s2 =
        (IterRes.next (rxPhase ol s2).st, t.evs ++ evs2 ++ (rxPhase ol s2).evs,
          t.ctrs ++ (rxPhase ol s2).ctrs) ∧
      (rxPhase ol s2).fatal = none ∧
      (t.prog = true ∨ (rxPhase ol s2).prog = true ∨
        (t.prog = false ∧ (rxPhase ol s2).prog = false ∧
          (rxPhase ol s2).st.rxCount = ol))) ∨
    (pumpIterCore slave ol t evs2 s2 =
        (IterRes.waitThen
            { (rxPhase ol s2).st with hw := hwEcho slave (rxPhase ol s2).st.hw },
          t.evs ++ evs2 ++ (rxPhase ol s2).evs ++ [Event.waitIrq],
          t.ctrs ++ (rxPhase ol s2).ctrs) ∧
      (rxPhase ol s2).fatal = none ∧
      t.prog = false ∧ (rxPhase ol s2).prog = false ∧
      (rxPhase ol s2).st.rxCount ≠ ol ∧
      (rxPhase ol s2).st.hw.overrun = false) := by
  unfold pumpIterCore
  cases hf : (rxPhase ol s2).fatal with
  | some f => exact Or.inl ⟨f, rfl, Or.inl rfl⟩
  | none =>
    by_cases hp : t.prog = true ∨ (rxPhase ol s2).prog = true
    · rw [if_pos hp]
      rcases hp with hp | hp
      · exact Or.inr (Or.inl ⟨rfl, rfl, Or.inl hp⟩)
      · exact Or.inr (Or.inl ⟨rfl, rfl, Or.inr (Or.inl hp)⟩)
    · rw [if_neg hp]
      obtain ⟨hq1, hq2⟩ := not_or.mp hp
      rw [Bool.not_eq_true] at hq1 hq2
      by_cases hne : (rxPhase ol s2).st.rxCount ≠ ol
      · rw [if_pos hne]
        by_cases hov : (rxPhase ol s2).st.hw.overrun = true
        · rw [if_pos hov]
          exact Or.inl ⟨Fatal.overrun, rfl, Or.inr ⟨rfl, hov⟩⟩
        · rw [if_neg hov]
          rw [Bool.not_eq_true] at hov
          exact Or.inr (Or.inr ⟨rfl, rfl, hq1, hq2, hne, hov⟩)
      · rw [if_neg hne]
        exact Or.inr (Or.inl ⟨rfl, rfl, Or.inr (Or.inr ⟨hq1, hq2, not_ne_iff.mp hne⟩)⟩)

theorem pumpIterCore_evs (slave : Nat → Byte → Byte) (ol : Nat) (t : PhaseOut)
    (evs2 : List Event) (s2 : PumpState)
    (ht : ∀ e ∈ t.evs, isPumpEvent e = true)
    (h2 : ∀ e ∈ evs2, isPumpEvent e = true) :
    ∀ e ∈ (pumpIterCore slave ol t evs2 s2).2.1, isPumpEvent e = true := by
  have hrx : ∀ e ∈ (rxPhase ol s2).evs, isPumpEvent e = true := by
    intro e he
    obtain ⟨b, rfl⟩ := rxPhase_evs ol s2 e he
    rfl
  have hbase : ∀ e ∈ t.evs ++ evs2 ++ (rxPhase ol s2).evs, isPumpEvent e = true := by
    intro e he
    rcases List.mem_append.mp he with he | he
    · rcases List.mem_append.mp he with he | he
      · exact ht e he
      · exact h2 e he
    · exact hrx e he
  rcases pumpIterCore_cases slave ol t evs2 s2 with ⟨f, hE, -⟩ | ⟨hE, -⟩ | ⟨hE, -⟩ <;>
    rw [hE] <;> intro e he
  · exact hbase e he
  · exact hbase e he
  · rcases List.mem_append.mp he with he | he
    · exact hbase e he
    · simp only [List.mem_singleton] at he
      subst he
      rfl

theorem pumpIterCore_ctrs (slave : Nat → Byte → Byte) (ol : Nat) (t : PhaseOut)
    (evs2 : List Event) (s2 : PumpState)
    (hc : ∀ c ∈ t.ctrs, CtrInv ol c) (hs : SInv ol s2) :
    (∀ c ∈ (pumpIterCore slave ol t evs2 s2).2.2, CtrInv ol c) ∧
    (∀ s3 : PumpState,
      ((pumpIterCore slave ol t evs2 s2).1 = IterRes.next s3 ∨
        (pumpIterCore slave ol t evs2 s2).1 = IterRes.waitThen s3) →
      SInv ol s3) := by
  obtain ⟨e1, e2, e3⟩ := hs
  obtain ⟨q1, q2, q3, q4⟩ := rxPhase_spec ol s2 e3
  have hall : ∀ c ∈ t.ctrs ++ (rxPhase ol s2).ctrs, CtrInv ol c := by
    intro c hcc
    rcases List.mem_append.mp hcc with hcc | hcc
    · exact hc c hcc
    · obtain ⟨w1, w2, w3⟩ := q1 c hcc
      exact ⟨by omega, by omega, w3⟩
  have hnext : (rxPhase ol s2).fatal = none → SInv ol (rxPhase ol s2).st := by
    intro hf
    obtain ⟨m1, m2, m3, m4, m5, m6, m7, m8, m9, m10, m11, m12⟩ := q4 hf
    have hle := q3.mp hf
    exact ⟨by omega, by omega, by omega⟩
  rcases pumpIterCore_cases slave ol t evs2 s2 with ⟨f, hE, -⟩ | ⟨hE, hf, -⟩ |
    ⟨hE, hf, -, -, -, -⟩ <;> rw [hE]
  · refine ⟨hall, ?_⟩
    rintro s3 (h | h) <;> exact IterRes.noConfusion h
  · refine ⟨hall, ?_⟩
    rintro s3 (h | h)
    · injection h with h
      rw [← h]
      exact hnext hf
    · exact IterRes.noConfusion h
  · refine ⟨hall, ?_⟩
    rintro s3 (h | h)
    · exact IterRes.noConfusion h
    · injection h with h
      rw [← h]
      obtain ⟨n1, n2, n3⟩ := hnext hf
      exact ⟨n1, n2, n3⟩

theorem pumpIterCore_safe (slave : Nat → Byte → Byte) (ol : Nat) (t : PhaseOut)
    (evs2 : List Event) (s2 : PumpState) (hs : SafeInv ol s2) :
    ∃ s3 : PumpState,
      ((pumpIterCore slave ol t evs2 s2).1 = IterRes.next s3 ∨
        (pumpIterCore slave ol t evs2 s2).1 = IterRes.waitThen s3) ∧
      SafeInv ol s3 := by
  obtain ⟨e1, e2, e3⟩ := hs
  have hrc : s2.rxCount ≤ ol := by omega
  obtain ⟨q1, q2, q3, q4⟩ := rxPhase_spec ol s2 hrc
  have hf : (rxPhase ol s2).fatal = none := q3.mpr (by omega)
  obtain ⟨m1, m2, m3, m4, m5, m6, m7, m8, m9, m10, m11, m12⟩ := q4 hf
  have hsafeR : SafeInv ol (rxPhase ol s2).st := by
    refine ⟨?_, by omega, by rw [m10]; exact e3⟩
    simp only [m1, m3, m8, m9, List.length_nil]
    omega
  have hsafeW : SafeInv ol
      { (rxPhase ol s2).st with hw := hwEcho slave (rxPhase ol s2).st.hw } := by
    refine ⟨?_, by simpa using hsafeR.2.1, ?_⟩
    · show (rxPhase ol s2).st.rxCount +
        (hwEcho slave (rxPhase ol s2).st.hw).rxFifo.length +
        (hwEcho slave (rxPhase ol s2).st.hw).txFifo.length = (rxPhase ol s2).st.txCount
      rw [hwEcho_rxFifo_length, hwEcho_txFifo]
      have := hsafeR.1
      simp only [List.length_nil]
      omega
    · show (hwEcho slave (rxPhase ol s2).st.hw).overrun = false
      rw [hwEcho_overrun, m10]
      exact e3
  rcases pumpIterCore_cases slave ol t evs2 s2 with ⟨f, hE, hcond⟩ | ⟨hE, -, -⟩ |
    ⟨hE, -, -, -, -, -⟩
  · exfalso
    rcases hcond with hcond | ⟨-, hcond⟩
    · rw [hf] at hcond
      exact Option.noConfusion hcond
    · rw [m10, e3] at hcond
      exact Bool.noConfusion hcond
  · exact ⟨(rxPhase ol s2).st, by rw [hE]; exact Or.inl rfl, hsafeR⟩
  · exact ⟨_, by rw [hE]; exact Or.inr rfl, hsafeW⟩

theorem pumpIterCore_progress (slave : Nat → Byte → Byte) (ol cap : Nat) (t : PhaseOut)
    (evs2 : List Event) (s2 : PumpState)
    (hclean : CleanInv ol cap s2)
    (hne0 : s2.rxCount ≠ ol)
    (hexit : s2.hasTx = true →
      ¬(s2.txCount < ol ∧ 0 < s2.txPermits ∧ canTxFrame s2.hw = true)) :
    ∃ s3 : PumpState,
      ((pumpIterCore slave ol t evs2 s2).1 = IterRes.next s3 ∨
        (pumpIterCore slave ol t evs2 s2).1 = IterRes.waitThen s3) ∧
      CleanInv ol cap s3 ∧
      pumpMeasure ol s3 < pumpMeasure ol s2 + (if t.prog = true then 1 else 0) := by
  obtain ⟨c1, c2, c3, c4, c5, c6, c7, c8⟩ := hclean
  have hrc : s2.rxCount ≤ ol := by omega
  obtain ⟨q1, q2, q3, q4⟩ := rxPhase_spec ol s2 hrc
  have hf : (rxPhase ol s2).fatal = none := q3.mpr (by omega)
  obtain ⟨m1, m2, m3, m4, m5, m6, m7, m8, m9, m10, m11, m12⟩ := q4 hf
  have hsum : s2.rxCount + s2.hw.rxFifo.length ≤ ol := by omega
  have hcleanR : CleanInv ol cap (rxPhase ol s2).st := by
    refine ⟨by omega, by omega, ?_, by rw [m10]; exact c4, by rw [m11]; exact c5, c6, ?_, ?_⟩
    · simp only [m1, m3, m8, m9, List.length_nil]
      omega
    · rw [m9]
      exact c7
    · rw [m4, m3]
      exact c8
  have hn0 : (rxPhase ol s2).prog = false → s2.hw.rxFifo.length = 0 := by
    intro hpf
    by_contra hh
    have := m12.mpr (Nat.pos_of_ne_zero hh)
    rw [hpf] at this
    exact Bool.noConfusion this
  rcases pumpIterCore_cases slave ol t evs2 s2 with ⟨f, hE, hcond⟩ | ⟨hE, -, hcond⟩ |
    ⟨hE, -, hp1, hp2, hne, hov⟩
  · exfalso
    rcases hcond with hcond | ⟨-, hcond⟩
    · rw [hf] at hcond
      exact Option.noConfusion hcond
    · rw [m10, c4] at hcond
      exact Bool.noConfusion hcond
  · refine ⟨(rxPhase ol s2).st, by rw [hE]; exact Or.inl rfl, hcleanR, ?_⟩
    rcases hcond with hp | hp | ⟨hp1, hp2, hpc⟩
    · rw [if_pos hp]
      simp only [pumpMeasure, m1, m3, m8, List.length_nil]
      split <;> split <;> omega
    · have hn1 : 0 < s2.hw.rxFifo.length := m12.mp hp
      simp only [pumpMeasure, m1, m3, m8, List.length_nil]
      split <;> split <;> split <;> omega
    · exfalso
      have hn0x := hn0 hp2
      rw [m1] at hpc
      omega
  · have hn0x := hn0 hp2
    have htl : 1 ≤ s2.hw.txFifo.length := by
      cases hhx : s2.hasTx with
      | false =>
        have := c8 hhx
        omega
      | true =>
        have hex := hexit hhx
        by_cases htlo : s2.txCount < ol
        · by_cases hpm : 0 < s2.txPermits
          · have hge : ¬(s2.hw.txFifo.length < s2.hw.fifoCap) := by
              intro hlt
              exact hex ⟨htlo, hpm, (canTxFrame_iff s2.hw).mpr hlt⟩
            omega
          · omega
        · omega
    refine ⟨{ (rxPhase ol s2).st with hw := hwEcho slave (rxPhase ol s2).st.hw },
      by rw [hE]; exact Or.inr rfl, ?_, ?_⟩
    · -- CleanInv of the echo state
      refine ⟨?_, ?_, ?_, ?_, ?_, c6, ?_, ?_⟩
      · show (rxPhase ol s2).st.txPermits + (rxPhase ol s2).st.txCount =
          16 + (rxPhase ol s2).st.rxCount
        omega
      · show (rxPhase ol s2).st.txCount ≤ ol
        omega
      · show (rxPhase ol s2).st.rxCount +
          (hwEcho slave (rxPhase ol s2).st.hw).rxFifo.length +
          (hwEcho slave (rxPhase ol s2).st.hw).txFifo.length = (rxPhase ol s2).st.txCount
        rw [hwEcho_rxFifo_length, hwEcho_txFifo]
        simp only [m1, m3, m8, m9, List.length_nil]
        omega
      · show (hwEcho slave (rxPhase ol s2).st.hw).overrun = false
        rw [hwEcho_overrun, m10]
        exact c4
      · show (hwEcho slave (rxPhase ol s2).st.hw).fifoCap = cap
        rw [hwEcho_fifoCap, m11]
        exact c5
      · show (hwEcho slave (rxPhase ol s2).st.hw).txFifo.length ≤ cap
        rw [hwEcho_txFifo]
        simp only [List.length_nil]
        omega
      · show (rxPhase ol s2).st.hasTx = false → (rxPhase ol s2).st.txCount = ol
        rw [m4, m3]
        exact c8
    · -- measure strictly drops across the suspension
      simp only [pumpMeasure, m1, m3, hn0x, Nat.add_zero, hwEcho_rxFifo_length,
        hwEcho_txFifo, m8, m9, List.length_nil, if_true]
      rw [if_neg (by omega : ¬(0 + s2.hw.txFifo.length = 0))]
      repeat' split
      all_goals omega

theorem pumpIterRest_evs (slave : Nat → Byte → Byte) (ol : Nat) (hasTx0 : Bool) (t : PhaseOut)
    (ht : ∀ e ∈ t.evs, isPumpEvent e = true) :
    ∀ e ∈ (pumpIterRest slave ol hasTx0 t).2.1, isPumpEvent e = true := by
  unfold pumpIterRest
  split
  · refine pumpIterCore_evs _ _ _ _ _ ht ?_
    intro e he
    simp only [List.mem_singleton] at he
    subst he
    rfl
  · refine pumpIterCore_evs _ _ _ _ _ ht ?_
    intro e he
    simp at he

theorem pumpIterRest_ctrs (slave : Nat → Byte → Byte) (ol : Nat) (hasTx0 : Bool) (t : PhaseOut)
    (hc : ∀ c ∈ t.ctrs, CtrInv ol c) (hs : SInv ol t.st) :
    (∀ c ∈ (pumpIterRest slave ol hasTx0 t).2.2, CtrInv ol c) ∧
    (∀ s3 : PumpState,
      ((pumpIterRest slave ol hasTx0 t).1 = IterRes.next s3 ∨
        (pumpIterRest slave ol hasTx0 t).1 = IterRes.waitThen s3) →
      SInv ol s3) := by
  unfold pumpIterRest
  split
  · exact pumpIterCore_ctrs _ _ _ _ _ hc hs
  · exact pumpIterCore_ctrs _ _ _ _ _ hc hs

theorem pumpIterRest_safe (slave : Nat → Byte → Byte) (ol : Nat) (hasTx0 : Bool) (t : PhaseOut)
    (hs : SafeInv ol t.st) :
    ∃ s3 : PumpState,
      ((pumpIterRest slave ol hasTx0 t).1 = IterRes.next s3 ∨
        (pumpIterRest slave ol hasTx0 t).1 = IterRes.waitThen s3) ∧
      SafeInv ol s3 := by
  unfold pumpIterRest
  split
  · exact pumpIterCore_safe _ _ _ _ _ hs
  · exact pumpIterCore_safe _ _ _ _ _ hs

theorem pumpIterRest_progress (slave : Nat → Byte → Byte) (ol cap : Nat) (t : PhaseOut)
    (hasTx0 : Bool)
    (hclean : CleanInv ol cap t.st)
    (hne0 : t.st.rxCount ≠ ol)
    (hx : t.st.hasTx = true →
      ¬(t.st.txCount < ol ∧ 0 < t.st.txPermits ∧ canTxFrame t.st.hw = true)) :
    ∃ s3 : PumpState,
      ((pumpIterRest slave ol hasTx0 t).1 = IterRes.next s3 ∨
        (pumpIterRest slave ol hasTx0 t).1 = IterRes.waitThen s3) ∧
      CleanInv ol cap s3 ∧
      pumpMeasure ol s3 < pumpMeasure ol t.st + (if t.prog = true then 1 else 0) := by
  unfold pumpIterRest
  split
  case isTrue h =>
    refine pumpIterCore_progress slave ol cap t _ _ ?_ hne0 ?_
    · exact ⟨hclean.1, hclean.2.1, hclean.2.2.1, hclean.2.2.2.1, hclean.2.2.2.2.1,
        hclean.2.2.2.2.2.1, hclean.2.2.2.2.2.2.1, fun _ => h.2⟩
    · intro hh
      exact absurd hh (by simp)
  case isFalse h =>
    exact pumpIterCore_progress slave ol cap t _ _ hclean hne0 hx

theorem pumpIter_evs (slave : Nat → Byte → Byte) (ol : Nat) (s : PumpState) :
    ∀ e ∈ (pumpIter slave ol s).2.1, isPumpEvent e = true := by
  unfold pumpIter
  by_cases hx : s.hasTx = true
  · rw [if_pos hx]
    refine pumpIterRest_evs _ _ _ _ ?_
    obtain ⟨k, h1, h2, h3, h4, h5, h6, h7, h8, h9, h10, h11, h12, h13, h14, h15, h16, h17⟩ :=
      txPhase_spec ol s
    intro e he
    obtain ⟨b, rfl⟩ := h17 e he
    rfl
  · rw [if_neg hx]
    refine pumpIterRest_evs _ _ _ _ ?_
    intro e he
    simp at he

theorem pumpIter_ctrs (slave : Nat → Byte → Byte) (ol : Nat) (s : PumpState) (h : SInv ol s) :
    (∀ c ∈ (pumpIter slave ol s).2.2, CtrInv ol c) ∧
    (∀ s3 : PumpState,
      ((pumpIter slave ol s).1 = IterRes.next s3 ∨
        (pumpIter slave ol s).1 = IterRes.waitThen s3) →
      SInv ol s3) := by
  obtain ⟨e1, e2, e3⟩ := h
  unfold pumpIter
  by_cases hx : s.hasTx = true
  · rw [if_pos hx]
    obtain ⟨k, h1, h2, h3, h4, h5, h6, h7, h8, h9, h10, h11, h12, h13, h14, h15, h16, h17⟩ :=
      txPhase_spec ol s
    refine pumpIterRest_ctrs _ _ _ _ ?_ ?_
    · intro c hcc
      obtain ⟨w1, w2, w3⟩ := h16 c hcc
      refine ⟨by omega, w3, ?_⟩
      rw [w2]
      exact e3
    · refine ⟨by omega, ?_, by rw [h3]; exact e3⟩
      rcases Nat.eq_zero_or_pos k with hk | hk
      · omega
      · have := h12 hk
        omega
  · rw [if_neg hx]
    refine pumpIterRest_ctrs _ _ _ _ ?_ ⟨e1, e2, e3⟩
    intro c hcc
    simp at hcc

theorem pumpIter_safe (slave : Nat → Byte → Byte) (ol : Nat) (s : PumpState)
    (h : SafeInv ol s) :
    ∃ s3 : PumpState,
      ((pumpIter slave ol s).1 = IterRes.next s3 ∨
        (pumpIter slave ol s).1 = IterRes.waitThen s3) ∧
      SafeInv ol s3 := by
  obtain ⟨e1, e2, e3⟩ := h
  unfold pumpIter
  by_cases hx : s.hasTx = true
  · rw [if_pos hx]
    obtain ⟨k, h1, h2, h3, h4, h5, h6, h7, h8, h9, h10, h11, h12, h13, h14, h15, h16, h17⟩ :=
      txPhase_spec ol s
    refine pumpIterRest_safe _ _ _ _ ?_
    refine ⟨?_, ?_, by rw [h9]; exact e3⟩
    · rw [h3, h8, h11, h1]
      omega
    · rcases Nat.eq_zero_or_pos k with hk | hk
      · omega
      · have := h12 hk
        omega
  · rw [if_neg hx]
    exact pumpIterRest_safe _ _ _ _ ⟨e1, e2, e3⟩

theorem pumpIter_progress (slave : Nat → Byte → Byte) (ol cap : Nat) (s : PumpState)
    (h : CleanInv ol cap s) (hne : s.rxCount ≠ ol) :
    ∃ s3 : PumpState,
      ((pumpIter slave ol s).1 = IterRes.next s3 ∨
        (pumpIter slave ol s).1 = IterRes.waitThen s3) ∧
      CleanInv ol cap s3 ∧
      pumpMeasure ol s3 < pumpMeasure ol s := by
  obtain ⟨c1, c2, c3, c4, c5, c6, c7, c8⟩ := h
  unfold pumpIter
  by_cases hx : s.hasTx = true
  · rw [if_pos hx]
    obtain ⟨k, h1, h2, h3, h4, h5, h6, h7, h8, h9, h10, h11, h12, h13, h14, h15, h16, h17⟩ :=
      txPhase_spec ol s
    have htxle : (txPhase ol s).st.txCount ≤ ol := by
      rcases Nat.eq_zero_or_pos k with hk | hk
      · omega
      · have := h12 hk
        omega
    have hcleanT : CleanInv ol cap (txPhase ol s).st := by
      refine ⟨by omega, htxle, ?_, by rw [h9]; exact c4, by rw [h10]; exact c5, c6, ?_, ?_⟩
      · rw [h3, h8, h11, h1]
        omega
      · have := h15 (by omega)
        omega
      · rw [h4, hx]
        intro hh
        exact Bool.noConfusion hh
    obtain ⟨s3, hres, hcl3, hm3⟩ :=
      pumpIterRest_progress slave ol cap (txPhase ol s) s.hasTx hcleanT
        (by rw [h3]; exact hne) (fun _ => h14)
    refine ⟨s3, hres, hcl3, ?_⟩
    have hmu : pumpMeasure ol (txPhase ol s).st +
        (if (txPhase ol s).prog = true then 1 else 0) ≤ pumpMeasure ol s := by
      rcases Nat.eq_zero_or_pos k with hk | hk
      · have hpf : (txPhase ol s).prog = false := by
          cases hb : (txPhase ol s).prog
          · rfl
          · exact absurd (h13.mp hb) (by omega)
        rw [hpf, if_neg (by simp)]
        simp only [pumpMeasure, h1, h3, h8, hk]
        omega
      · rw [if_pos (h13.mpr hk)]
        simp only [pumpMeasure, h1, h3, h8]
        have := h12 hk
        omega
    omega
  · rw [if_neg hx]
    have hxf : s.hasTx = false := by
      cases hb : s.hasTx
      · rfl
      · exact absurd hb hx
    obtain ⟨s3, hres, hcl3, hm3⟩ :=
      pumpIterRest_progress slave ol cap { st := s, prog := false, evs := [], ctrs := [] }
        s.hasTx ⟨c1, c2, c3, c4, c5, c6, c7, c8⟩ hne
        (fun hh => absurd hh (by rw [hxf]; intro hz; exact Bool.noConfusion hz))
    refine ⟨s3, hres, hcl3, ?_⟩
    simpa using hm3

/-- Every counter snapshot the pump loop records satisfies the
backpressure relation and the `overall_len` bounds. -/
theorem pumpLoop_ctrs (slave : Nat → Byte → Byte) (ol : Nat) :
    ∀ (fuel : Nat) (s : PumpState), SInv ol s →
      ∀ c ∈ (pumpLoop slave ol fuel s).ctrs, CtrInv ol c := by
  intro fuel
  induction fuel with
  | zero =>
    intro s h c hc
    simp [pumpLoop] at hc
  | succ fuel ih =>
    intro s h c hc
    by_cases hr : s.rxCount = ol
    · simp [pumpLoop, if_pos hr] at hc
    · obtain ⟨hall, hnextInv⟩ := pumpIter_ctrs slave ol s h
      rcases hIter : pumpIter slave ol s with ⟨res, evs, ctrs2⟩
      rw [hIter] at hall hnextInv
      simp only [pumpLoop, if_neg hr] at hc
      rw [hIter] at hc
      cases res with
      | fail f =>
        exact hall c hc
      | next s2 =>
        rcases List.mem_append.mp hc with hc | hc
        · exact hall c hc
        · exact ih s2 (hnextInv s2 (Or.inl rfl)) c hc
      | waitThen s2 =>
        rcases List.mem_append.mp hc with hc | hc
        · exact hall c hc
        · exact ih s2 (hnextInv s2 (Or.inr rfl)) c hc

/-- From a state satisfying the conservation invariant the pump loop
never panics: in particular it does not halt on `excessRx` or on a
detected overrun. -/
theorem pumpLoop_no_fatal (slave : Nat → Byte → Byte) (ol : Nat) :
    ∀ (fuel : Nat) (s : PumpState), SafeInv ol s →
      ∀ f, (pumpLoop slave ol fuel s).res ≠ PumpRes.fail f := by
  intro fuel
  induction fuel with
  | zero =>
    intro s h f
    simp [pumpLoop]
  | succ fuel ih =>
    intro s h f
    by_cases hr : s.rxCount = ol
    · simp [pumpLoop, if_pos hr]
    · obtain ⟨s3, hres, hsafe3⟩ := pumpIter_safe slave ol s h
      rcases hIter : pumpIter slave ol s with ⟨res, evs, ctrs2⟩
      rw [hIter] at hres
      simp only [pumpLoop, if_neg hr]
      rw [hIter]
      rcases hres with hres | hres
      · replace hres : res = IterRes.next s3 := hres
        subst hres
        exact ih s3 hsafe3 f
      · replace hres : res = IterRes.waitThen s3 := hres
        subst hres
        exact ih s3 hsafe3 f

/-- From a clean state, the pump loop completes within
`pumpMeasure` passes: it returns `done` with `rx_count = overall_len`. -/
theorem pumpLoop_completes (slave : Nat → Byte → Byte) (ol cap : Nat) :
    ∀ (fuel : Nat) (s : PumpState), CleanInv ol cap s → pumpMeasure ol s < fuel →
      ∃ s2 : PumpState, (pumpLoop slave ol fuel s).res = PumpRes.done s2 ∧
        s2.rxCount = ol ∧ CleanInv ol cap s2 := by
  intro fuel
  induction fuel with
  | zero =>
    intro s h hm
    omega
  | succ fuel ih =>
    intro s h hm
    by_cases hr : s.rxCount = ol
    · exact ⟨s, by simp [pumpLoop, if_pos hr], hr, h⟩
    · obtain ⟨s3, hres, hcl3, hm3⟩ := pumpIter_progress slave ol cap s h hr
      rcases hIter : pumpIter slave ol s with ⟨res, evs, ctrs2⟩
      rw [hIter] at hres
      obtain ⟨s2, hdone, hrc2, hcl2⟩ := ih s3 hcl3 (by omega)
      simp only [pumpLoop, if_neg hr]
      rw [hIter]
      rcases hres with hres | hres
      · replace hres : res = IterRes.next s3 := hres
        subst hres
        exact ⟨s2, hdone, hrc2, hcl2⟩
      · replace hres : res = IterRes.waitThen s3 := hres
        subst hres
        exact ⟨s2, hdone, hrc2, hcl2⟩

/-- Every event the pump loop emits is a pump event (send, receive,
interrupt wait, or disabling the transmit-ready interrupt): the pump
performs no GPIO and no chip-select operation. -/
theorem pumpLoop_evs (slave : Nat → Byte → Byte) (ol : Nat) :
    ∀ (fuel : Nat) (s : PumpState), ∀ e ∈ (pumpLoop slave ol fuel s).evs,
      isPumpEvent e = true := by
  intro fuel
  induction fuel with
  | zero =>
    intro s e he
    simp [pumpLoop] at he
  | succ fuel ih =>
    intro s e he
    by_cases hr : s.rxCount = ol
    · simp [pumpLoop, if_pos hr] at he
    · have hall := pumpIter_evs slave ol s
      rcases hIter : pumpIter slave ol s with ⟨res, evs, ctrs2⟩
      rw [hIter] at hall
      simp only [pumpLoop, if_neg hr] at he
      rw [hIter] at he
      cases res with
      | fail f =>
        exact hall e he
      | next s2 =>
        rcases List.mem_append.mp he with he | he
        · exact hall e he
        · exact ih s2 e he
      | waitThen s2 =>
        rcases List.mem_append.mp he with he | he
        · exact hall e he
        · exact ih s2 e he

/-- With no source reader and idle clean hardware nothing can ever
make progress: the pump loop suspends forever (the modelled loop burns
all its fuel).  This is the behaviour of a pure `read`. -/
theorem pumpLoop_stall (slave : Nat → Byte → Byte) (ol : Nat) :
    ∀ (fuel : Nat) (s : PumpState), s.hasTx = false → s.hw.txFifo = [] →
      s.hw.rxFifo = [] → s.hw.overrun = false → s.rxCount ≠ ol →
      (pumpLoop slave ol fuel s).res = PumpRes.outOfFuel := by
  intro fuel
  induction fuel with
  | zero =>
    intro s hTx hTxF hRxF hOv hNe
    rfl
  | succ fuel ih =>
    intro s hTx hTxF hRxF hOv hNe
    have h1 : ¬(s.hasTx = true) := by simp [hTx]
    have hrx0 : rxPhase ol s =
        { st := s, prog := false, evs := [], ctrs := [], fatal := none } := by
      unfold rxPhase
      rw [hRxF]
      rfl
    have hcore : pumpIterCore slave ol { st := s, prog := false, evs := [], ctrs := [] } [] s =
        (IterRes.waitThen s, [Event.waitIrq], []) := by
      rcases pumpIterCore_cases slave ol { st := s, prog := false, evs := [], ctrs := [] } [] s
        with ⟨f, hE, hcond⟩ | ⟨hE, hf, hcond⟩ | ⟨hE, hf, hp1, hp2, hne2, hov2⟩
      · exfalso
        rw [hrx0] at hcond
        rcases hcond with hcond | ⟨-, hcond⟩
        · exact Option.noConfusion hcond
        · replace hcond : s.hw.overrun = true := hcond
          rw [hOv] at hcond
          exact Bool.noConfusion hcond
      · exfalso
        rw [hrx0] at hcond
        rcases hcond with hz | hz | ⟨-, -, hz⟩
        · exact Bool.noConfusion hz
        · exact Bool.noConfusion hz
        · replace hz : s.rxCount = ol := hz
          exact hNe hz
      · rw [hrx0] at hE
        rw [hE]
        simp [hwEcho_of_txFifo_nil slave s.hw hTxF]
    have hIter : pumpIter slave ol s = (IterRes.waitThen s, [Event.waitIrq], []) := by
      unfold pumpIter pumpIterRest
      rw [if_neg h1, if_neg (fun hz => h1 hz.1)]
      exact hcore
    simp only [pumpLoop, if_neg hNe]
    rw [hIter]
    exact ih s hTx hTxF hRxF hOv hNe

/-- The drain-wait loop always completes on its first pass in this
hardware model: the suspension lets the hardware shift out whatever is
left, after which the end-of-transaction flag reads set. -/
theorem drainWait_succ (slave : Nat → Byte → Byte) (fuel : Nat) (hw : HwState) :
    drainWait slave (fuel + 1) hw =
      (some (hwEcho slave hw), [Event.waitIrq, Event.clearEot]) := by
  simp [drainWait, check_eot]

/-- The primed stage never changes the server state. -/
theorem ready_writey_primed_srv (slave : Nat → Byte → Byte) (fuel : Nat)
    (device : DeviceDescriptor) (data_src : Option (List Byte)) (data_dest : Option Nat)
    (overall_len : Nat) (srv : Server) (hw : HwState) (muxEvts : List Event) :
    (ready_writey_primed slave fuel device data_src data_dest overall_len srv hw
      muxEvts).srv = srv := by
  simp only [ready_writey_primed]
  split
  · rfl
  · rfl
  · split
    · rfl
    · rfl

/-- The primed stage never returns a protocol error. -/
theorem ready_writey_primed_no_err (slave : Nat → Byte → Byte) (fuel : Nat)
    (device : DeviceDescriptor) (data_src : Option (List Byte)) (data_dest : Option Nat)
    (overall_len : Nat) (srv : Server) (hw : HwState) (muxEvts : List Event) (e : SpiError) :
    (ready_writey_primed slave fuel device data_src data_dest overall_len srv hw
      muxEvts).out ≠ Outcome.err e := by
  simp only [ready_writey_primed]
  split
  · intro h
    exact Outcome.noConfusion h
  · intro h
    exact Outcome.noConfusion h
  · split
    · intro h
      exact Outcome.noConfusion h
    · intro h
      exact Outcome.noConfusion h

/-- Whatever the pump outcome, the events of the primed stage start
with the routing events, then the priming sequence exactly as the code
performs it: enable, start, enable transfer interrupts, clear EOT,
then the auto chip-select assert unless a lock is held. -/
theorem ready_writey_primed_prefix (slave : Nat → Byte → Byte) (fuel : Nat)
    (device : DeviceDescriptor) (data_src : Option (List Byte)) (data_dest : Option Nat)
    (overall_len : Nat) (srv : Server) (hw : HwState) (muxEvts : List Event) :
    ∃ tail : List Event,
      (ready_writey_primed slave fuel device data_src data_dest overall_len srv hw
        muxEvts).evs =
      muxEvts ++
      [Event.spiEnable overall_len device.clock_divider, Event.spiStart,
       Event.enableTransferInterrupts, Event.clearEot] ++
      (if srv.lock_holder.isSome = true then []
       else [Event.setReset device.cs.port 0 device.cs.pin_mask]) ++ tail := by
  simp only [ready_writey_primed]
  split
  · exact ⟨_, rfl⟩
  · exact ⟨_, rfl⟩
  · split
    · simp only [List.append_assoc]
      exact ⟨_, rfl⟩
    · simp only [List.append_assoc]
      exact ⟨_, rfl⟩

/-- With a source lease, clean hardware and enough fuel, the primed
stage completes: the pump finishes, the EOT drain observes completion,
and the auto chip-select bracketing happens exactly when no lock is
held. -/
theorem ready_writey_primed_ok (slave : Nat → Byte → Byte) (fuel : Nat)
    (device : DeviceDescriptor) (data_src : Option (List Byte)) (data_dest : Option Nat)
    (overall_len : Nat) (srv : Server) (hw : HwState) (muxEvts : List Event)
    (hsrc : data_src.isSome = true)
    (hTxF : hw.txFifo = []) (hRxF : hw.rxFifo = []) (hOv : hw.overrun = false)
    (hCap : 1 ≤ hw.fifoCap)
    (hfuel : 3 * overall_len + 2 ≤ fuel) :
    ∃ pumpEvs : List Event, (∀ e ∈ pumpEvs, isPumpEvent e = true) ∧
      (ready_writey_primed slave fuel device data_src data_dest overall_len srv hw
        muxEvts).out = Outcome.ok ∧
      (ready_writey_primed slave fuel device data_src data_dest overall_len srv hw
        muxEvts).srv = srv ∧
      (ready_writey_primed slave fuel device data_src data_dest overall_len srv hw
        muxEvts).evs =
        muxEvts ++
        [Event.spiEnable overall_len device.clock_divider, Event.spiStart,
         Event.enableTransferInterrupts, Event.clearEot] ++
        (if srv.lock_holder.isSome = true then []
         else [Event.setReset device.cs.port 0 device.cs.pin_mask]) ++
        pumpEvs ++ [Event.waitIrq, Event.clearEot] ++ [Event.spiEnd] ++
        (if srv.lock_holder.isSome = true then []
         else [Event.setReset device.cs.port device.cs.pin_mask 0]) := by
  obtain ⟨f, rfl⟩ : ∃ f, fuel = f + 1 := ⟨fuel - 1, by omega⟩
  have hcl0 : CleanInv overall_len hw.fifoCap
      { hw := hw, hasTx := data_src.isSome, src := data_src.getD []
        hasRx := data_dest.isSome, dst := [], dstCap := data_dest.getD 0
        txPermits := 16, txCount := 0, rxCount := 0 } := by
    refine ⟨rfl, Nat.zero_le _, ?_, hOv, rfl, hCap, ?_, ?_⟩
    · show 0 + hw.rxFifo.length + hw.txFifo.length = 0
      rw [hRxF, hTxF]
      rfl
    · show hw.txFifo.length ≤ hw.fifoCap
      rw [hTxF]
      simp
    · show data_src.isSome = false → (0 : Nat) = overall_len
      rw [hsrc]
      intro hz
      exact Bool.noConfusion hz
  have hmu : pumpMeasure overall_len
      { hw := hw, hasTx := data_src.isSome, src := data_src.getD []
        hasRx := data_dest.isSome, dst := [], dstCap := data_dest.getD 0
        txPermits := 16, txCount := 0, rxCount := 0 } < f + 1 := by
    simp only [pumpMeasure, hRxF, List.length_nil, if_true]
    omega
  obtain ⟨s2, hdone, hrc2, hcl2⟩ :=
    pumpLoop_completes slave overall_len hw.fifoCap (f + 1)
      { hw := hw, hasTx := data_src.isSome, src := data_src.getD []
        hasRx := data_dest.isSome, dst := [], dstCap := data_dest.getD 0
        txPermits := 16, txCount := 0, rxCount := 0 } hcl0 hmu
  refine ⟨(pumpLoop slave overall_len (f + 1)
      { hw := hw, hasTx := data_src.isSome, src := data_src.getD []
        hasRx := data_dest.isSome, dst := [], dstCap := data_dest.getD 0
        txPermits := 16, txCount := 0, rxCount := 0 }).evs,
    pumpLoop_evs slave overall_len (f + 1) _, ?_, ?_, ?_⟩ <;>
    simp only [ready_writey_primed, hdone, drainWait_succ]

/-- A primed request with no source lease never completes: nothing is
ever pushed into the transmit FIFO, the full-duplex bus never clocks,
and the pump loop suspends forever. -/
theorem ready_writey_primed_stall (slave : Nat → Byte → Byte) (fuel : Nat)
    (device : DeviceDescriptor) (data_dest : Option Nat)
    (overall_len : Nat) (srv : Server) (hw : HwState) (muxEvts : List Event)
    (hTxF : hw.txFifo = []) (hRxF : hw.rxFifo = []) (hOv : hw.overrun = false)
    (hol : overall_len ≠ 0) :
    (ready_writey_primed slave fuel device none data_dest overall_len srv hw
      muxEvts).out = Outcome.incomplete := by
  have hres := pumpLoop_stall slave overall_len fuel
    { hw := hw, hasTx := (none : Option (List Byte)).isSome, src := (none : Option (List Byte)).getD []
      hasRx := data_dest.isSome, dst := [], dstCap := data_dest.getD 0
      txPermits := 16, txCount := 0, rxCount := 0 }
    rfl hTxF hRxF hOv (by intro h; exact hol h.symm)
  simp only [ready_writey_primed, hres]

/-- From clean hardware the primed stage never halts the task: neither
the `excessRx` nor the overrun panic can fire. -/
theorem ready_writey_primed_no_fatal (slave : Nat → Byte → Byte) (fuel : Nat)
    (device : DeviceDescriptor) (data_src : Option (List Byte)) (data_dest : Option Nat)
    (overall_len : Nat) (srv : Server) (hw : HwState) (muxEvts : List Event)
    (hTxF : hw.txFifo = []) (hRxF : hw.rxFifo = []) (hOv : hw.overrun = false)
    (ff : Fatal) :
    (ready_writey_primed slave fuel device data_src data_dest overall_len srv hw
      muxEvts).out ≠ Outcome.fatal ff := by
  have hsafe : SafeInv overall_len
      { hw := hw, hasTx := data_src.isSome, src := data_src.getD []
        hasRx := data_dest.isSome, dst := [], dstCap := data_dest.getD 0
        txPermits := 16, txCount := 0, rxCount := 0 } := by
    refine ⟨?_, Nat.zero_le _, hOv⟩
    show 0 + hw.rxFifo.length + hw.txFifo.length = 0
    rw [hRxF, hTxF]
    rfl
  have hnf := pumpLoop_no_fatal slave overall_len fuel _ hsafe
  cases fuel with
  | zero =>
    simp only [ready_writey_primed, pumpLoop]
    intro h
    exact Outcome.noConfusion h
  | succ f =>
    cases hres : (pumpLoop slave overall_len (f + 1)
        { hw := hw, hasTx := data_src.isSome, src := data_src.getD []
          hasRx := data_dest.isSome, dst := [], dstCap := data_dest.getD 0
          txPermits := 16, txCount := 0, rxCount := 0 }).res with
    | fail f2 => exact absurd hres (hnf f2)
    | outOfFuel =>
      simp only [ready_writey_primed, hres]
      intro h
      exact Outcome.noConfusion h
    | done s2 =>
      simp only [ready_writey_primed, hres, drainWait_succ]
      intro h
      exact Outcome.noConfusion h

/-- Every counter snapshot a primed request records satisfies the
backpressure and bound invariants. -/
theorem ready_writey_primed_ctrs (slave : Nat → Byte → Byte) (fuel : Nat)
    (device : DeviceDescriptor) (data_src : Option (List Byte)) (data_dest : Option Nat)
    (overall_len : Nat) (srv : Server) (hw : HwState) (muxEvts : List Event) :
    ∀ c ∈ (ready_writey_primed slave fuel device data_src data_dest overall_len srv hw
      muxEvts).ctrs, CtrInv overall_len c := by
  have hS : SInv overall_len
      { hw := hw, hasTx := data_src.isSome, src := data_src.getD []
        hasRx := data_dest.isSome, dst := [], dstCap := data_dest.getD 0
        txPermits := 16, txCount := 0, rxCount := 0 } :=
    ⟨rfl, Nat.zero_le _, Nat.zero_le _⟩
  have hall := pumpLoop_ctrs slave overall_len fuel _ hS
  intro c hc
  simp only [ready_writey_primed] at hc
  split at hc
  · exact hall c hc
  · exact hall c hc
  · split at hc
    · exact hall c hc
    · exact hall c hc

/-- The commit stage when the requested device needs a different mux
option: deactivate the current option, activate the new one, record
the new index, then prime. -/
theorem ready_writey_commit_switch (cfg : ServerConfig) (slave : Nat → Byte → Byte)
    (fuel : Nat) (device : DeviceDescriptor) (data_src : Option (List Byte))
    (data_dest : Option Nat) (overall_len : Nat) (srv : Server) (hw : HwState)
    (optOld optNew : SpiMuxOption)
    (hne : device.mux_index ≠ srv.current_mux_index)
    (hOld : cfg.mux_options.get? srv.current_mux_index = some optOld)
    (hNew : cfg.mux_options.get? device.mux_index = some optNew) :
    ready_writey_commit cfg slave fuel device data_src data_dest overall_len srv hw =
      ready_writey_primed slave fuel device data_src data_dest overall_len
        { srv with current_mux_index := device.mux_index } hw
        (deactivate_mux_option optOld ++ activate_mux_option optNew) := by
  simp only [ready_writey_commit, if_pos hne, hOld, hNew]

/-- The commit stage when the requested device shares the current mux
option: no mux operation at all. -/
theorem ready_writey_commit_noswitch (cfg : ServerConfig) (slave : Nat → Byte → Byte)
    (fuel : Nat) (device : DeviceDescriptor) (data_src : Option (List Byte))
    (data_dest : Option Nat) (overall_len : Nat) (srv : Server) (hw : HwState)
    (heq : device.mux_index = srv.current_mux_index) :
    ready_writey_commit cfg slave fuel device data_src data_dest overall_len srv hw =
      ready_writey_primed slave fuel device data_src data_dest overall_len srv hw [] := by
  simp only [ready_writey_commit, if_neg (not_ne_iff.mpr heq)]

/-- The commit stage never returns a protocol error. -/
theorem ready_writey_commit_no_err (cfg : ServerConfig) (slave : Nat → Byte → Byte)
    (fuel : Nat) (device : DeviceDescriptor) (data_src : Option (List Byte))
    (data_dest : Option Nat) (overall_len : Nat) (srv : Server) (hw : HwState)
    (e : SpiError) :
    (ready_writey_commit cfg slave fuel device data_src data_dest overall_len srv
      hw).out ≠ Outcome.err e := by
  unfold ready_writey_commit
  split
  · split
    · exact ready_writey_primed_no_err _ _ _ _ _ _ _ _ _ e
    · intro h
      exact Outcome.noConfusion h
  · exact ready_writey_primed_no_err _ _ _ _ _ _ _ _ _ e

/-- The validation stage hands over to the commit stage when the
device exists, at least one lease is present, and the overall length
is nonzero. -/
theorem ready_writey_validated_commit (cfg : ServerConfig) (slave : Nat → Byte → Byte)
    (fuel : Nat) (device_index : Nat) (data_src : Option (List Byte))
    (data_dest : Option Nat) (srv : Server) (hw : HwState) (device : DeviceDescriptor)
    (hdev : cfg.devices.get? device_index = some device)
    (hstream : data_src.isSome = true ∨ data_dest.isSome = true)
    (hol : max (data_src.getD []).length (data_dest.getD 0) ≠ 0) :
    ready_writey_validated cfg slave fuel device_index data_src data_dest srv hw =
      ready_writey_commit cfg slave fuel device data_src data_dest
        (max (data_src.getD []).length (data_dest.getD 0)) srv hw := by
  have hbn : ¬((data_src.isNone && data_dest.isNone) = true) := by
    rcases hstream with h | h <;> cases data_src <;> cases data_dest <;> simp_all
  simp only [ready_writey_validated, hdev, if_neg hbn, if_neg hol]

/-- The validation stage rejects an out-of-range device index. -/
theorem ready_writey_validated_badDevice (cfg : ServerConfig) (slave : Nat → Byte → Byte)
    (fuel : Nat) (device_index : Nat) (data_src : Option (List Byte))
    (data_dest : Option Nat) (srv : Server) (hw : HwState)
    (hnone : cfg.devices.get? device_index = none) :
    ready_writey_validated cfg slave fuel device_index data_src data_dest srv hw =
      { srv := srv, hw := hw, out := Outcome.err SpiError.BadDevice, evs := [], ctrs := [] } := by
  simp only [ready_writey_validated, hnone]

/-- The validation stage rejects a zero-length transfer. -/
theorem ready_writey_validated_badSize (cfg : ServerConfig) (slave : Nat → Byte → Byte)
    (fuel : Nat) (device_index : Nat) (data_src : Option (List Byte))
    (data_dest : Option Nat) (srv : Server) (hw : HwState) (device : DeviceDescriptor)
    (hdev : cfg.devices.get? device_index = some device)
    (hstream : data_src.isSome = true ∨ data_dest.isSome = true)
    (hol : max (data_src.getD []).length (data_dest.getD 0) = 0) :
    ready_writey_validated cfg slave fuel device_index data_src data_dest srv hw =
      { srv := srv, hw := hw, out := Outcome.err SpiError.BadTransferSize, evs := []
        ctrs := [] } := by
  have hbn : ¬((data_src.isNone && data_dest.isNone) = true) := by
    rcases hstream with h | h <;> cases data_src <;> cases data_dest <;> simp_all
  simp only [ready_writey_validated, hdev, if_neg hbn, if_pos hol]

/-- When the request is compatible with the lock, `ready_writey` is
the validation stage. -/
theorem ready_writey_lock_pass (cfg : ServerConfig) (slave : Nat → Byte → Byte)
    (fuel : Nat) (op : SpiOperation) (device_index : Nat) (data_src : Option (List Byte))
    (data_dest : Option Nat) (srv : Server) (hw : HwState)
    (h : lockCompat srv device_index) :
    ready_writey cfg slave fuel op device_index data_src data_dest srv hw =
      ready_writey_validated cfg slave fuel device_index data_src data_dest srv hw := by
  cases hl : srv.lock_holder with
  | none => simp only [ready_writey, hl]
  | some ls =>
    have hnn : ¬(ls.device_index ≠ device_index) := fun hne => hne (h ls hl)
    simp only [ready_writey, hl, if_neg hnn]

/-- While locked, a request addressing any other device is rejected
with `BadDevice` before anything at all happens. -/
theorem ready_writey_locked_mismatch (cfg : ServerConfig) (slave : Nat → Byte → Byte)
    (fuel : Nat) (op : SpiOperation) (device_index : Nat) (data_src : Option (List Byte))
    (data_dest : Option Nat) (srv : Server) (hw : HwState) (ls : LockState)
    (hl : srv.lock_holder = some ls) (hne : ls.device_index ≠ device_index) :
    ready_writey cfg slave fuel op device_index data_src data_dest srv hw =
      { srv := srv, hw := hw, out := Outcome.err SpiError.BadDevice, evs := [], ctrs := [] } := by
  simp only [ready_writey, hl, if_pos hne]

/-- A protocol-error return from `ready_writey` is atomic: the server
state, the hardware, the event list and the counter trace are exactly
as before the call. -/
theorem ready_writey_err_frame (cfg : ServerConfig) (slave : Nat → Byte → Byte)
    (fuel : Nat) (op : SpiOperation) (device_index : Nat) (data_src : Option (List Byte))
    (data_dest : Option Nat) (srv : Server) (hw : HwState) (e : SpiError)
    (h : (ready_writey cfg slave fuel op device_index data_src data_dest srv hw).out =
      Outcome.err e) :
    ready_writey cfg slave fuel op device_index data_src data_dest srv hw =
      { srv := srv, hw := hw, out := Outcome.err e, evs := [], ctrs := [] } := by
  have hval : ∀ (hv : (ready_writey_validated cfg slave fuel device_index data_src data_dest
        srv hw).out = Outcome.err e),
      ready_writey_validated cfg slave fuel device_index data_src data_dest srv hw =
        { srv := srv, hw := hw, out := Outcome.err e, evs := [], ctrs := [] } := by
    intro hv
    cases hdev : cfg.devices.get? device_index with
    | none =>
      rw [ready_writey_validated_badDevice cfg slave fuel device_index data_src data_dest
        srv hw hdev] at hv ⊢
      have : SpiError.BadDevice = e := by
        injection hv
      rw [← this]
    | some device =>
      by_cases hbn : (data_src.isNone && data_dest.isNone) = true
      · simp only [ready_writey_validated, hdev, if_pos hbn] at hv
        exact absurd hv (by intro hz; exact Outcome.noConfusion hz)
      · have hstream : data_src.isSome = true ∨ data_dest.isSome = true := by
          cases data_src <;> cases data_dest <;> simp_all
        by_cases hol : max (data_src.getD []).length (data_dest.getD 0) = 0
        · rw [ready_writey_validated_badSize cfg slave fuel device_index data_src data_dest
            srv hw device hdev hstream hol] at hv ⊢
          have : SpiError.BadTransferSize = e := by
            injection hv
          rw [← this]
        · rw [ready_writey_validated_commit cfg slave fuel device_index data_src data_dest
            srv hw device hdev hstream hol] at hv
          exact absurd hv (ready_writey_commit_no_err _ _ _ _ _ _ _ _ _ e)
  cases hl : srv.lock_holder with
  | none =>
    simp only [ready_writey, hl] at h ⊢
    exact hval h
  | some ls =>
    simp only [ready_writey, hl] at h ⊢
    by_cases hne : ls.device_index ≠ device_index
    · rw [if_pos hne] at h ⊢
      have : SpiError.BadDevice = e := by
        injection h
      rw [← this]
    · rw [if_neg hne] at h ⊢
      exact hval h

/-! ## Pin-level and event-class helper lemmas -/

/-- A nonzero mask driven high is observed high. -/
theorem or_and_self_ne_zero (m x : Nat) (hm : m ≠ 0) : (x ||| m) &&& m ≠ 0 := by
  intro h
  apply hm
  apply Nat.eq_of_testBit_eq
  intro i
  rw [Nat.zero_testBit]
  cases hb : m.testBit i with
  | false => rfl
  | true =>
    have h2 : ((x ||| m) &&& m).testBit i = false := by
      rw [h]
      exact Nat.zero_testBit i
    rw [Nat.testBit_and, Nat.testBit_or, hb] at h2
    simp at h2

/-- Clearing no bits is the identity. -/
theorem andNot_zero (x : Nat) : andNot x 0 = x := by
  simp only [andNot, Nat.and_zero, Nat.xor_zero]

/-- Folding events distributes over list append. -/
theorem applyEvents_append (pins : Pins) (evs1 evs2 : List Event) :
    applyEvents pins (evs1 ++ evs2) = applyEvents (applyEvents pins evs1) evs2 := by
  induction evs1 generalizing pins with
  | nil => rfl
  | cons e rest ih =>
    simp only [List.cons_append, applyEvents]
    exact ih (applyEvent pins e)

/-- Driving (setting) the whole chip-select mask high leaves the device
deasserted, CS being active low. -/
theorem csDeasserted_after_set (pins : Pins) (d : DeviceDescriptor)
    (hm : d.cs.pin_mask ≠ 0) :
    csDeasserted
      (applyEvent pins (Event.setReset d.cs.port d.cs.pin_mask 0)) d = true := by
  simp only [csDeasserted, applyEvent]
  rw [if_pos trivial, andNot_zero]
  exact decide_eq_true (or_and_self_ne_zero _ _ hm)

/-- Pump events never drive pins. -/
theorem pumpEvent_no_touch (ps : PinSet) (e : Event) (h : isPumpEvent e = true) :
    touchesPinSet ps e = false := by
  cases e <;> simp_all [isPumpEvent, touchesPinSet]

/-- Pump events are not mux-switching events. -/
theorem pumpEvent_not_mux (e : Event) (h : isPumpEvent e = true) :
    isMuxEvent e = false := by
  cases e <;> simp_all [isPumpEvent, isMuxEvent]

/-- The EOT drain only suspends on the interrupt and clears the flag. -/
theorem drainWait_evs (slave : Nat → Byte → Byte) :
    ∀ (fuel : Nat) (hw : HwState), ∀ e ∈ (drainWait slave fuel hw).snd,
      e = Event.waitIrq ∨ e = Event.clearEot := by
  intro fuel
  induction fuel with
  | zero =>
    intro hw e he
    simp [drainWait] at he
  | succ fuel ih =>
    intro hw e he
    simp only [drainWait] at he
    split at he
    · simp only [List.mem_cons, List.mem_singleton, List.not_mem_nil, or_false] at he
      rcases he with rfl | rfl
      · exact Or.inl rfl
      · exact Or.inr rfl
    · simp only [List.mem_cons] at he
      rcases he with rfl | he
      · exact Or.inl rfl
      · exact ih _ e he

/-- Deactivating the mux output groups drives no pin of a disjoint pin
set. -/
theorem deactivate_outputs_no_touch (ps : PinSet) :
    ∀ (outs : List (PinSet × Nat)),
      (∀ pa ∈ outs, pa.fst.port = ps.port → pa.fst.pin_mask &&& ps.pin_mask = 0) →
      ∀ e ∈ deactivate_outputs outs, touchesPinSet ps e = false := by
  intro outs
  induction outs with
  | nil =>
    intro _ e he
    simp [deactivate_outputs] at he
  | cons pa rest ih =>
    intro h e he
    simp only [deactivate_outputs, List.mem_cons] at he
    rcases he with rfl | rfl | he
    · simp only [touchesPinSet]
      by_cases hp : pa.fst.port = ps.port
      · have hz := h pa (List.mem_cons_self pa rest) hp
        simp [hp, Nat.zero_or, hz]
      · simp [hp]
    · rfl
    · exact ih (fun pa2 hm => h pa2 (List.mem_cons_of_mem pa hm)) e he

/-- Activating the mux output groups drives no pin at all (they are
reconfigurations). -/
theorem activate_outputs_no_touch (ps : PinSet) :
    ∀ (outs : List (PinSet × Nat)), ∀ e ∈ activate_outputs outs,
      touchesPinSet ps e = false := by
  intro outs
  induction outs with
  | nil =>
    intro e he
    simp [activate_outputs] at he
  | cons pa rest ih =>
    intro e he
    simp only [activate_outputs, List.mem_cons] at he
    rcases he with rfl | he
    · rfl
    · exact ih e he

/-- Deactivating a mux option never drives a disjoint pin set. -/
theorem deactivate_mux_option_no_touch (ps : PinSet) (opt : SpiMuxOption)
    (h : ∀ pa ∈ opt.outputs, pa.fst.port = ps.port → pa.fst.pin_mask &&& ps.pin_mask = 0) :
    ∀ e ∈ deactivate_mux_option opt, touchesPinSet ps e = false := by
  intro e he
  rcases List.mem_append.mp he with he | he
  · exact deactivate_outputs_no_touch ps opt.outputs h e he
  · simp only [List.mem_singleton] at he
    subst he
    rfl

/-- Activating a mux option never drives any pin. -/
theorem activate_mux_option_no_touch (ps : PinSet) (opt : SpiMuxOption) :
    ∀ e ∈ activate_mux_option opt, touchesPinSet ps e = false := by
  intro e he
  rcases List.mem_cons.mp he with rfl | he2
  · rfl
  · rcases List.mem_append.mp he2 with he3 | he3
    · exact activate_outputs_no_touch ps opt.outputs e he3
    · simp only [List.mem_singleton] at he3
      subst he3
      rfl

/-- With routing events that are not mux events, the primed stage emits
no mux event at all: priming, chip-select bracketing, pumping and
draining never reconfigure pins. -/
theorem ready_writey_primed_no_mux (slave : Nat → Byte → Byte) (fuel : Nat)
    (device : DeviceDescriptor) (data_src : Option (List Byte)) (data_dest : Option Nat)
    (overall_len : Nat) (srv : Server) (hw : HwState) (muxEvts : List Event)
    (hmux : ∀ e ∈ muxEvts, isMuxEvent e = false) :
    ∀ e ∈ (ready_writey_primed slave fuel device data_src data_dest overall_len srv hw
      muxEvts).evs, isMuxEvent e = false := by
  have hpump : ∀ e ∈ (pumpLoop slave overall_len fuel
      { hw := hw, hasTx := data_src.isSome, src := data_src.getD []
        hasRx := data_dest.isSome, dst := [], dstCap := data_dest.getD 0
        txPermits := 16, txCount := 0, rxCount := 0 }).evs, isMuxEvent e = false :=
    fun e he => pumpEvent_not_mux e (pumpLoop_evs slave overall_len fuel _ e he)
  have hcs : ∀ (b : Bool) (sm rm : Nat),
      ∀ e ∈ (if b = true then [] else [Event.setReset device.cs.port sm rm]),
        isMuxEvent e = false := by
    intro b sm rm e he
    split at he
    · simp at he
    · simp only [List.mem_singleton] at he
      subst he
      rfl
  have hprime : ∀ e ∈ [Event.spiEnable overall_len device.clock_divider, Event.spiStart,
      Event.enableTransferInterrupts, Event.clearEot], isMuxEvent e = false := by
    intro e he
    simp only [List.mem_cons, List.not_mem_nil, or_false] at he
    rcases he with rfl | rfl | rfl | rfl <;> rfl
  intro e he
  simp only [ready_writey_primed] at he
  split at he
  · simp only [List.mem_append] at he
    rcases he with ((hm | hp) | hc) | hpp
    · exact hmux e hm
    · exact hprime e hp
    · exact hcs _ _ _ e hc
    · exact hpump e hpp
  · simp only [List.mem_append] at he
    rcases he with ((hm | hp) | hc) | hpp
    · exact hmux e hm
    · exact hprime e hp
    · exact hcs _ _ _ e hc
    · exact hpump e hpp
  · split at he
    · simp only [List.mem_append] at he
      rcases he with (((hm | hp) | hc) | hpp) | hd
      · exact hmux e hm
      · exact hprime e hp
      · exact hcs _ _ _ e hc
      · exact hpump e hpp
      · rename_i dEvs heq
        rcases drainWait_evs slave fuel _ e (by rw [heq]; exact hd) with rfl | rfl <;> rfl
    · simp only [List.mem_append] at he
      rcases he with (((((hm | hp) | hc) | hpp) | hd) | hend) | hc2
      · exact hmux e hm
      · exact hprime e hp
      · exact hcs _ _ _ e hc
      · exact hpump e hpp
      · rename_i hw2 dEvs heq
        rcases drainWait_evs slave fuel _ e (by rw [heq]; exact hd) with rfl | rfl <;> rfl
      · simp only [List.mem_singleton] at hend
        subst hend
        rfl
      · exact hcs _ _ _ e hc2

/-- Every counter snapshot of the commit stage satisfies the
backpressure invariants. -/
theorem ready_writey_commit_ctrs (cfg : ServerConfig) (slave : Nat → Byte → Byte)
    (fuel : Nat) (device : DeviceDescriptor) (data_src : Option (List Byte))
    (data_dest : Option Nat) (overall_len : Nat) (srv : Server) (hw : HwState) :
    ∀ c ∈ (ready_writey_commit cfg slave fuel device data_src data_dest overall_len srv
      hw).ctrs, CtrInv overall_len c := by
  intro c hc
  unfold ready_writey_commit at hc
  split at hc
  · split at hc
    · exact ready_writey_primed_ctrs slave fuel device data_src data_dest overall_len
        _ hw _ c hc
    · simp at hc
  · exact ready_writey_primed_ctrs slave fuel device data_src data_dest overall_len
      srv hw [] c hc

/-- Every counter snapshot of the validation stage satisfies the
backpressure invariants for the request's overall length. -/
theorem ready_writey_validated_ctrs (cfg : ServerConfig) (slave : Nat → Byte → Byte)
    (fuel : Nat) (device_index : Nat) (data_src : Option (List Byte))
    (data_dest : Option Nat) (srv : Server) (hw : HwState) :
    ∀ c ∈ (ready_writey_validated cfg slave fuel device_index data_src data_dest srv
      hw).ctrs, CtrInv (max (data_src.getD []).length (data_dest.getD 0)) c := by
  intro c hc
  simp only [ready_writey_validated] at hc
  split at hc
  · simp at hc
  · split at hc
    · simp at hc
    · split at hc
      · simp at hc
      · exact ready_writey_commit_ctrs cfg slave fuel _ data_src data_dest _ srv hw c hc

/-- Every counter snapshot any call records satisfies the backpressure
invariants for the request's overall length. -/
theorem ready_writey_ctrs (cfg : ServerConfig) (slave : Nat → Byte → Byte)
    (fuel : Nat) (op : SpiOperation) (device_index : Nat) (data_src : Option (List Byte))
    (data_dest : Option Nat) (srv : Server) (hw : HwState) :
    ∀ c ∈ (ready_writey cfg slave fuel op device_index data_src data_dest srv hw).ctrs,
      CtrInv (max (data_src.getD []).length (data_dest.getD 0)) c := by
  intro c hc
  unfold ready_writey at hc
  split at hc
  · split at hc
    · simp at hc
    · exact ready_writey_validated_ctrs cfg slave fuel device_index data_src data_dest
        srv hw c hc
  · exact ready_writey_validated_ctrs cfg slave fuel device_index data_src data_dest
      srv hw c hc

/-- From clean hardware and in-range mux indices, the commit stage
never halts the task. -/
theorem ready_writey_commit_no_fatal (cfg : ServerConfig) (slave : Nat → Byte → Byte)
    (fuel : Nat) (device : DeviceDescriptor) (data_src : Option (List Byte))
    (data_dest : Option Nat) (overall_len : Nat) (srv : Server) (hw : HwState)
    (hmuxCur : srv.current_mux_index < cfg.mux_options.length)
    (hmuxDev : device.mux_index < cfg.mux_options.length)
    (hTxF : hw.txFifo = []) (hRxF : hw.rxFifo = []) (hOv : hw.overrun = false)
    (ff : Fatal) :
    (ready_writey_commit cfg slave fuel device data_src data_dest overall_len srv
      hw).out ≠ Outcome.fatal ff := by
  by_cases hm : device.mux_index = srv.current_mux_index
  · rw [ready_writey_commit_noswitch cfg slave fuel device data_src data_dest
      overall_len srv hw hm]
    exact ready_writey_primed_no_fatal slave fuel device data_src data_dest overall_len
      srv hw [] hTxF hRxF hOv ff
  · obtain ⟨optOld, hOld⟩ : ∃ o, cfg.mux_options.get? srv.current_mux_index = some o :=
      ⟨_, List.get?_eq_get hmuxCur⟩
    obtain ⟨optNew, hNew⟩ : ∃ o, cfg.mux_options.get? device.mux_index = some o :=
      ⟨_, List.get?_eq_get hmuxDev⟩
    rw [ready_writey_commit_switch cfg slave fuel device data_src data_dest overall_len
      srv hw optOld optNew hm hOld hNew]
    exact ready_writey_primed_no_fatal slave fuel device data_src data_dest overall_len
      _ hw _ hTxF hRxF hOv ff

/-- When the requested device's mux option is already routed, the whole
call performs no mux event. -/
theorem ready_writey_no_mux (cfg : ServerConfig) (slave : Nat → Byte → Byte)
    (fuel : Nat) (op : SpiOperation) (device_index : Nat) (data_src : Option (List Byte))
    (data_dest : Option Nat) (srv : Server) (hw : HwState) (device : DeviceDescriptor)
    (hdev : cfg.devices.get? device_index = some device)
    (halign : device.mux_index = srv.current_mux_index) :
    ∀ e ∈ (ready_writey cfg slave fuel op device_index data_src data_dest srv hw).evs,
      isMuxEvent e = false := by
  have hval : ∀ e ∈ (ready_writey_validated cfg slave fuel device_index data_src
      data_dest srv hw).evs, isMuxEvent e = false := by
    intro e2 he
    simp only [ready_writey_validated, hdev] at he
    split at he
    · simp at he
    · split at he
      · simp at he
      · rw [ready_writey_commit_noswitch cfg slave fuel device data_src data_dest
          _ srv hw halign] at he
        exact ready_writey_primed_no_mux slave fuel device data_src data_dest _
          srv hw [] (by intro e3 he3; simp at he3) e2 he
  intro e he
  unfold ready_writey at he
  split at he
  · split at he
    · simp at he
    · exact hval e he
  · exact hval e he

/-- The master success theorem: a lock-compatible request on an
existing device with a source lease, a nonzero length, clean hardware,
in-range mux options and enough fuel completes with `ok`.  The full
event trace is: the mux switch exactly when the device's option is not
routed, the priming sequence, the auto chip-select assert unless
locked, the pump events, the EOT drain, `spi.end`, then the auto
chip-select deassert unless locked.  The server records the device's
mux index. -/
theorem ready_writey_success (cfg : ServerConfig) (slave : Nat → Byte → Byte)
    (fuel : Nat) (op : SpiOperation) (device_index : Nat) (data_src : Option (List Byte))
    (data_dest : Option Nat) (srv : Server) (hw : HwState) (device : DeviceDescriptor)
    (optOld optNew : SpiMuxOption)
    (hlc : lockCompat srv device_index)
    (hdev : cfg.devices.get? device_index = some device)
    (hOld : cfg.mux_options.get? srv.current_mux_index = some optOld)
    (hNew : cfg.mux_options.get? device.mux_index = some optNew)
    (hsrc : data_src.isSome = true)
    (hol : max (data_src.getD []).length (data_dest.getD 0) ≠ 0)
    (hTxF : hw.txFifo = []) (hRxF : hw.rxFifo = []) (hOv : hw.overrun = false)
    (hCap : 1 ≤ hw.fifoCap)
    (hfuel : 3 * max (data_src.getD []).length (data_dest.getD 0) + 2 ≤ fuel) :
    ∃ pumpEvs : List Event, (∀ e ∈ pumpEvs, isPumpEvent e = true) ∧
      (ready_writey cfg slave fuel op device_index data_src data_dest srv hw).out =
        Outcome.ok ∧
      (ready_writey cfg slave fuel op device_index data_src data_dest srv hw).srv =
        { srv with current_mux_index := device.mux_index } ∧
      (ready_writey cfg slave fuel op device_index data_src data_dest srv hw).evs =
        (if device.mux_index = srv.current_mux_index then []
         else deactivate_mux_option optOld ++ activate_mux_option optNew) ++
        [Event.spiEnable (max (data_src.getD []).length (data_dest.getD 0))
           device.clock_divider, Event.spiStart,
         Event.enableTransferInterrupts, Event.clearEot] ++
        (if srv.lock_holder.isSome = true then []
         else [Event.setReset device.cs.port 0 device.cs.pin_mask]) ++
        pumpEvs ++ [Event.waitIrq, Event.clearEot] ++ [Event.spiEnd] ++
        (if srv.lock_holder.isSome = true then []
         else [Event.setReset device.cs.port device.cs.pin_mask 0]) := by
  rw [ready_writey_lock_pass cfg slave fuel op device_index data_src data_dest srv hw hlc,
      ready_writey_validated_commit cfg slave fuel device_index data_src data_dest srv hw
        device hdev (Or.inl hsrc) hol]
  by_cases hm : device.mux_index = srv.current_mux_index
  · rw [ready_writey_commit_noswitch cfg slave fuel device data_src data_dest
      (max (data_src.getD []).length (data_dest.getD 0)) srv hw hm]
    obtain ⟨pumpEvs, hp, hout, hsrv, hevs⟩ :=
      ready_writey_primed_ok slave fuel device data_src data_dest
        (max (data_src.getD []).length (data_dest.getD 0)) srv hw [] hsrc hTxF hRxF
        hOv hCap hfuel
    refine ⟨pumpEvs, hp, hout, ?_, ?_⟩
    · rw [hsrv]
      cases srv with
      | mk l c =>
        simp only at hm
        rw [hm]
    · rw [hevs, if_pos hm]
  · rw [ready_writey_commit_switch cfg slave fuel device data_src data_dest
      (max (data_src.getD []).length (data_dest.getD 0)) srv hw optOld optNew hm hOld
      hNew]
    obtain ⟨pumpEvs, hp, hout, hsrv, hevs⟩ :=
      ready_writey_primed_ok slave fuel device data_src data_dest
        (max (data_src.getD []).length (data_dest.getD 0))
        { srv with current_mux_index := device.mux_index } hw
        (deactivate_mux_option optOld ++ activate_mux_option optNew) hsrc hTxF hRxF
        hOv hCap hfuel
    refine ⟨pumpEvs, hp, hout, hsrv, ?_⟩
    rw [hevs, if_neg hm]

/-- A lock taken while unlocked succeeds on any existing device: the
holder is recorded and the chip-select pin is driven per the requested
state. -/
theorem lock_unlocked_ok (cfg : ServerConfig) (sender devidx : Nat) (cs_state : CsState)
    (srv : Server) (device : DeviceDescriptor)
    (hl : srv.lock_holder = none)
    (hdev : cfg.devices.get? devidx = some device) :
    lock cfg sender devidx cs_state srv =
      ({ srv with lock_holder := some { task := sender, device_index := devidx } },
       Outcome.ok,
       [Event.setReset device.cs.port
          (if (cs_state == CsState.asserted) = true then 0 else device.cs.pin_mask)
          (if (cs_state == CsState.asserted) = true then device.cs.pin_mask else 0)]) := by
  simp only [lock, hl, lock_rest, hdev]

/-- While locked, a lock call from the holder for a different device is
rejected and nothing changes. -/
theorem lock_locked_mismatch (cfg : ServerConfig) (sender devidx : Nat)
    (cs_state : CsState) (srv : Server) (ls : LockState)
    (hl : srv.lock_holder = some ls) (hs : ls.task = sender)
    (hne : ls.device_index ≠ devidx) :
    lock cfg sender devidx cs_state srv = (srv, Outcome.err SpiError.BadDevice, []) := by
  simp only [lock, hl, if_neg (not_ne_iff.mpr hs), if_pos hne]

/-- Releasing while no lock is held reports `NothingToRelease` and
changes nothing. -/
theorem release_none (cfg : ServerConfig) (sender : Nat) (srv : Server)
    (hl : srv.lock_holder = none) :
    release cfg sender srv = (srv, Outcome.err SpiError.NothingToRelease, []) := by
  simp only [release, hl]

/-- A release from the holder deasserts the locked device's chip-select
and clears the lock. -/
theorem release_holder (cfg : ServerConfig) (sender : Nat) (srv : Server)
    (ls : LockState) (device : DeviceDescriptor)
    (hl : srv.lock_holder = some ls) (hs : ls.task = sender)
    (hdev : cfg.devices.get? ls.device_index = some device) :
    release cfg sender srv =
      ({ srv with lock_holder := none }, Outcome.ok,
       [Event.setReset device.cs.port device.cs.pin_mask 0]) := by
  simp only [release, hl, if_neg (not_ne_iff.mpr hs), hdev]

/-! ## The claims -/

/-- C1: the claim says every read, write or exchange with overall
length `N > 0` delivers exactly `N` bytes to the destination stream.
The code gives a pure `read` no source lease (`ready_writey` is called
with `None` for the source), so the transmit arm of the pump never
pushes a byte, the full-duplex bus never clocks, no receive byte can
ever arrive, and the transfer never completes: `read` of one byte from
device 0 of the example configuration fails to deliver anything at
every fuel bound, returning only by fuel exhaustion. -/
theorem c1_read_never_delivers : readNeverCompletes := by
  intro fuel
  simp only [read]
  rw [ready_writey_lock_pass cfgC slaveEcho fuel SpiOperation.read 0 none (some 1)
    srv0 hw0 (by intro ls h; exact Option.noConfusion h)]
  rw [ready_writey_validated_commit cfgC slaveEcho fuel 0 none (some 1) srv0 hw0 dev0
    rfl (Or.inr rfl) (by decide)]
  rw [ready_writey_commit_noswitch cfgC slaveEcho fuel dev0 none (some 1)
    (max ((none : Option (List Byte)).getD []).length ((some 1 : Option Nat).getD 0))
    srv0 hw0 rfl]
  exact ready_writey_primed_stall slaveEcho fuel dev0 (some 1) _ srv0 hw0 [] rfl rfl rfl
    (by decide)

/-- C2: every counter snapshot recorded during a call keeps the
transmit lead within the 16-byte backpressure budget — `tx_permits`
plus `tx_count` is always exactly `16 + rx_count`, so `tx_count` never
exceeds `rx_count + 16` — and neither counter passes the overall
length. -/
theorem c2_backpressure (cfg : ServerConfig) (slave : Nat → Byte → Byte) (fuel : Nat)
    (op : SpiOperation) (device_index : Nat) (data_src : Option (List Byte))
    (data_dest : Option Nat) (srv : Server) (hw : HwState) (c : Ctr)
    (hc : c ∈ (ready_writey cfg slave fuel op device_index data_src data_dest srv
      hw).ctrs) :
    c.tx ≤ c.rx + 16 ∧ c.permits + c.tx = 16 + c.rx ∧
    c.tx ≤ max (data_src.getD []).length (data_dest.getD 0) ∧
    c.rx ≤ max (data_src.getD []).length (data_dest.getD 0) := by
  obtain ⟨h1, h2, h3⟩ :=
    ready_writey_ctrs cfg slave fuel op device_index data_src data_dest srv hw c hc
  exact ⟨by omega, h1, h2, h3⟩

/-- C2 witness: the first counter snapshot of a one-byte exchange on
the example configuration. -/
theorem c2_backpressure_witness :
    (Ctr.mk 15 1 0).tx ≤ (Ctr.mk 15 1 0).rx + 16 ∧
    (Ctr.mk 15 1 0).permits + (Ctr.mk 15 1 0).tx = 16 + (Ctr.mk 15 1 0).rx ∧
    (Ctr.mk 15 1 0).tx ≤ max ((some [5] : Option (List Byte)).getD []).length
      ((some 1 : Option Nat).getD 0) ∧
    (Ctr.mk 15 1 0).rx ≤ max ((some [5] : Option (List Byte)).getD []).length
      ((some 1 : Option Nat).getD 0) :=
  c2_backpressure cfgC slaveEcho 20 SpiOperation.exchange 0 (some [5]) (some 1) srv0
    hw0 (Ctr.mk 15 1 0) (by decide)

/-- C3 counterexample: with two stale bytes left in the receive FIFO, a
validated one-byte exchange halts the task through a third condition
the claim does not list — a receive byte available when `rx_count`
already equals `overall_len` — which is neither the overrun halt nor
the no-direction halt. -/
theorem c3_excess_rx_counterexample :
    (exchange cfgC slaveEcho 5 0 [5] 1 srv0 hwStale).out =
      Outcome.fatal Fatal.excessRx ∧
    Fatal.excessRx ≠ Fatal.overrun ∧ Fatal.excessRx ≠ Fatal.noDirection := by
  exact ⟨by decide, by decide, by decide⟩

/-- C3 amended: mid-pump the task can halt three ways — the overrun
halt, the no-direction halt, and an excess receive byte arriving at
`rx_count = overall_len`.  On hardware whose FIFOs start empty with no
overrun pending (the state a correct driver leaves behind), none of
them fires: a request holding at least one lease, on an existing device
with in-range mux options, never halts the task. -/
theorem c3_amended_no_halt_on_clean_hw (cfg : ServerConfig) (slave : Nat → Byte → Byte)
    (fuel : Nat) (op : SpiOperation) (device_index : Nat) (data_src : Option (List Byte))
    (data_dest : Option Nat) (srv : Server) (hw : HwState) (device : DeviceDescriptor)
    (hdev : cfg.devices.get? device_index = some device)
    (hmuxCur : srv.current_mux_index < cfg.mux_options.length)
    (hmuxDev : device.mux_index < cfg.mux_options.length)
    (hstream : data_src.isSome = true ∨ data_dest.isSome = true)
    (hTxF : hw.txFifo = []) (hRxF : hw.rxFifo = []) (hOv : hw.overrun = false)
    (ff : Fatal) :
    (ready_writey cfg slave fuel op device_index data_src data_dest srv hw).out ≠
      Outcome.fatal ff := by
  have hval : (ready_writey_validated cfg slave fuel device_index data_src data_dest
      srv hw).out ≠ Outcome.fatal ff := by
    by_cases hol : max (data_src.getD []).length (data_dest.getD 0) = 0
    · rw [ready_writey_validated_badSize cfg slave fuel device_index data_src data_dest
        srv hw device hdev hstream hol]
      intro h
      exact Outcome.noConfusion h
    · rw [ready_writey_validated_commit cfg slave fuel device_index data_src data_dest
        srv hw device hdev hstream hol]
      exact ready_writey_commit_no_fatal cfg slave fuel device data_src data_dest _
        srv hw hmuxCur hmuxDev hTxF hRxF hOv ff
  cases hl : srv.lock_holder with
  | none =>
    rw [ready_writey_lock_pass cfg slave fuel op device_index data_src data_dest srv hw
      (by intro ls h; rw [hl] at h; exact Option.noConfusion h)]
    exact hval
  | some ls =>
    by_cases hne : ls.device_index ≠ device_index
    · rw [ready_writey_locked_mismatch cfg slave fuel op device_index data_src
        data_dest srv hw ls hl hne]
      intro h
      exact Outcome.noConfusion h
    · rw [ready_writey_lock_pass cfg slave fuel op device_index data_src data_dest srv
        hw (by intro ls2 h2; rw [hl] at h2; injection h2 with h3; rw [← h3]; exact
          not_ne_iff.mp hne)]
      exact hval

/-- C3 witness: a one-byte exchange on the example configuration from
clean hardware cannot halt with the overrun panic. -/
theorem c3_amended_witness :
    (ready_writey cfgC slaveEcho 20 SpiOperation.exchange 0 (some [5]) (some 1) srv0
      hw0).out ≠ Outcome.fatal Fatal.overrun :=
  c3_amended_no_halt_on_clean_hw cfgC slaveEcho 20 SpiOperation.exchange 0 (some [5])
    (some 1) srv0 hw0 dev0 rfl (by decide) (by decide) (Or.inl rfl) rfl rfl rfl
    Fatal.overrun

/-- C4 counterexample: on a three-byte exchange the code primes as
enable, start, enable transfer interrupts, clear EOT, assert
chip-select — whereas the claim's order (enable, start, clear EOT,
then enable interrupts) puts the third and fourth steps the other way
round. -/
theorem c4_priming_order_counterexample :
    (exchange cfgC slaveEcho 20 0 [170, 187, 204] 3 srv0 hw0).evs.take 5 =
      [Event.spiEnable 3 7, Event.spiStart, Event.enableTransferInterrupts,
       Event.clearEot, Event.setReset 0 0 4] ∧
    (exchange cfgC slaveEcho 20 0 [170, 187, 204] 3 srv0 hw0).evs.take 5 ≠
      spec_priming_events 3 7 0 4 false := by
  exact ⟨by decide, by decide⟩

/-- C4 amended: for every validated transfer the priming phase performs
exactly, in order: enable the bus for `overall_len` bytes at the
device's clock divider, start the transaction, enable transfer
interrupts, clear any pending EOT flag, and then — only when no lock is
held — assert chip-select; it is preceded by the mux switch exactly
when the device's option is not the routed one, and when a lock is held
no chip-select operation happens during priming. -/
theorem c4_amended_priming_order (cfg : ServerConfig) (slave : Nat → Byte → Byte)
    (fuel : Nat) (op : SpiOperation) (device_index : Nat) (data_src : Option (List Byte))
    (data_dest : Option Nat) (srv : Server) (hw : HwState) (device : DeviceDescriptor)
    (optOld optNew : SpiMuxOption)
    (hlc : lockCompat srv device_index)
    (hdev : cfg.devices.get? device_index = some device)
    (hstream : data_src.isSome = true ∨ data_dest.isSome = true)
    (hol : max (data_src.getD []).length (data_dest.getD 0) ≠ 0)
    (hOld : cfg.mux_options.get? srv.current_mux_index = some optOld)
    (hNew : cfg.mux_options.get? device.mux_index = some optNew) :
    ∃ tail : List Event,
      (ready_writey cfg slave fuel op device_index data_src data_dest srv hw).evs =
        (if device.mux_index = srv.current_mux_index then []
         else deactivate_mux_option optOld ++ activate_mux_option optNew) ++
        [Event.spiEnable (max (data_src.getD []).length (data_dest.getD 0))
           device.clock_divider, Event.spiStart,
         Event.enableTransferInterrupts, Event.clearEot] ++
        (if srv.lock_holder.isSome = true then []
         else [Event.setReset device.cs.port 0 device.cs.pin_mask]) ++ tail := by
  rw [ready_writey_lock_pass cfg slave fuel op device_index data_src data_dest srv hw
    hlc,
    ready_writey_validated_commit cfg slave fuel device_index data_src data_dest srv hw
      device hdev hstream hol]
  by_cases hm : device.mux_index = srv.current_mux_index
  · rw [ready_writey_commit_noswitch cfg slave fuel device data_src data_dest
      (max (data_src.getD []).length (data_dest.getD 0)) srv hw hm]
    obtain ⟨tail, htail⟩ := ready_writey_primed_prefix slave fuel device data_src
      data_dest (max (data_src.getD []).length (data_dest.getD 0)) srv hw []
    rw [if_pos hm]
    exact ⟨tail, by rw [htail]⟩
  · rw [ready_writey_commit_switch cfg slave fuel device data_src data_dest
      (max (data_src.getD []).length (data_dest.getD 0)) srv hw optOld optNew hm hOld
      hNew]
    obtain ⟨tail, htail⟩ := ready_writey_primed_prefix slave fuel device data_src
      data_dest (max (data_src.getD []).length (data_dest.getD 0))
      { srv with current_mux_index := device.mux_index } hw
      (deactivate_mux_option optOld ++ activate_mux_option optNew)
    rw [if_neg hm]
    exact ⟨tail, by rw [htail]⟩

/-- C4 witness: a mux-switching one-byte exchange to device 1 of the
example configuration shows the full priming prefix. -/
theorem c4_amended_witness :
    ∃ tail : List Event,
      (ready_writey cfgC slaveEcho 20 SpiOperation.exchange 1 (some [1]) (some 1) srv0
        hw0).evs =
        (if dev1.mux_index = srv0.current_mux_index then []
         else deactivate_mux_option muxOpt0 ++ activate_mux_option muxOpt1) ++
        [Event.spiEnable (max ((some [1] : Option (List Byte)).getD []).length
           ((some 1 : Option Nat).getD 0)) dev1.clock_divider, Event.spiStart,
         Event.enableTransferInterrupts, Event.clearEot] ++
        (if srv0.lock_holder.isSome = true then []
         else [Event.setReset dev1.cs.port 0 dev1.cs.pin_mask]) ++ tail :=
  c4_amended_priming_order cfgC slaveEcho 20 SpiOperation.exchange 1 (some [1])
    (some 1) srv0 hw0 dev1 muxOpt0 muxOpt1 (by intro ls h; exact Option.noConfusion h)
    rfl (Or.inl rfl) (by decide) rfl rfl

/-- C5 counterexample: while task 7 holds the lock on device 1, the
holder's own one-byte `read` of device 1 passes the lock check and the
validation, but never succeeds: with no source lease the bus never
clocks, so the call returns only by fuel exhaustion, at every fuel
bound — refuting the claim's "a read/write/exchange targeting d
succeeds". -/
theorem c5_locked_read_counterexample :
    lockedReadNeverCompletes ∧ Outcome.incomplete ≠ Outcome.ok := by
  constructor
  · intro fuel
    simp only [read]
    rw [ready_writey_lock_pass cfgC slaveEcho fuel SpiOperation.read 1 none (some 1)
      srvLocked1 hw0 (by
        intro ls h
        have h2 : some { task := 7, device_index := 1 : LockState } = some ls := h
        injection h2 with h3
        rw [← h3])]
    rw [ready_writey_validated_commit cfgC slaveEcho fuel 1 none (some 1) srvLocked1
      hw0 dev1 rfl (Or.inr rfl) (by decide)]
    rw [ready_writey_commit_switch cfgC slaveEcho fuel dev1 none (some 1)
      (max ((none : Option (List Byte)).getD []).length ((some 1 : Option Nat).getD 0))
      srvLocked1 hw0 muxOpt0 muxOpt1 (by decide) rfl rfl]
    exact ready_writey_primed_stall slaveEcho fuel dev1 (some 1) _ _ hw0 _ rfl rfl rfl
      (by decide)
  · intro h
    exact Outcome.noConfusion h

/-- C5 amended: while a lock is held for device `d`, a transfer call of
any kind — a pure `read` with no source lease included — targeting any
other index returns `BadDevice` untouched, and a `lock` call from the
holder for any other index returns `BadDevice` untouched; a transfer
that does carry a source lease and targets `d` itself succeeds with the
lock intact and with no event of the call driving the device's
chip-select pin (no auto assert before, no auto deassert after) — but a
pure `read` targeting `d`, having no source lease, never completes. -/
theorem c5_amended_lock_routing (cfg : ServerConfig) (slave : Nat → Byte → Byte)
    (fuel : Nat) (op : SpiOperation) (data_src : Option (List Byte))
    (data_dest : Option Nat) (d : Nat) (srv : Server) (hw : HwState) (ls : LockState)
    (device : DeviceDescriptor) (optOld optNew : SpiMuxOption)
    (hl : srv.lock_holder = some ls)
    (hd : ls.device_index = d) :
    (∀ dp, dp ≠ d →
      ready_writey cfg slave fuel op dp data_src data_dest srv hw =
        { srv := srv, hw := hw, out := Outcome.err SpiError.BadDevice, evs := []
          ctrs := [] }) ∧
    (∀ dp cs_state, dp ≠ d →
      lock cfg ls.task dp cs_state srv = (srv, Outcome.err SpiError.BadDevice, [])) ∧
    (cfg.devices.get? d = some device →
     muxCsDisjoint cfg device →
     cfg.mux_options.get? srv.current_mux_index = some optOld →
     cfg.mux_options.get? device.mux_index = some optNew →
     data_src.isSome = true →
     max (data_src.getD []).length (data_dest.getD 0) ≠ 0 →
     hw.txFifo = [] → hw.rxFifo = [] → hw.overrun = false →
     1 ≤ hw.fifoCap →
     3 * max (data_src.getD []).length (data_dest.getD 0) + 2 ≤ fuel →
     ((ready_writey cfg slave fuel op d data_src data_dest srv hw).out = Outcome.ok ∧
      (ready_writey cfg slave fuel op d data_src data_dest srv hw).srv.lock_holder =
        srv.lock_holder ∧
      ∀ e ∈ (ready_writey cfg slave fuel op d data_src data_dest srv hw).evs,
        touchesPinSet device.cs e = false)) := by
  refine ⟨?_, ?_, ?_⟩
  · intro dp hdp
    exact ready_writey_locked_mismatch cfg slave fuel op dp data_src data_dest srv hw
      ls hl (by rw [hd]; exact fun h => hdp h.symm)
  · intro dp cs_state hdp
    exact lock_locked_mismatch cfg ls.task dp cs_state srv ls hl rfl
      (by rw [hd]; exact fun h => hdp h.symm)
  · intro hdev hdisj hOld hNew hsrc hol hTxF hRxF hOv hCap hfuel
    have hOldMem : optOld ∈ cfg.mux_options := List.get?_mem hOld
    obtain ⟨pumpEvs, hp, hout, hsrv, hevs⟩ :=
      ready_writey_success cfg slave fuel op d data_src data_dest srv hw device optOld
        optNew (by
          intro ls2 h2
          rw [hl] at h2
          injection h2 with h3
          rw [← h3]
          exact hd) hdev hOld hNew hsrc hol hTxF hRxF hOv hCap hfuel
    have hlockT : srv.lock_holder.isSome = true := by
      rw [hl]
      rfl
    refine ⟨hout, by rw [hsrv], ?_⟩
    intro e he
    rw [hevs] at he
    simp only [hlockT, eq_self_iff_true, if_true, List.append_nil, List.mem_append]
      at he
    rcases he with ((((hmu | hpr) | hpe) | hwc) | hse)
    · split at hmu
      · simp at hmu
      · rcases List.mem_append.mp hmu with hmu | hmu
        · exact deactivate_mux_option_no_touch device.cs optOld
            (fun pa hpa => hdisj optOld hOldMem pa hpa) e hmu
        · exact activate_mux_option_no_touch device.cs optNew e hmu
    · simp only [List.mem_cons, List.not_mem_nil, or_false] at hpr
      rcases hpr with rfl | rfl | rfl | rfl <;> rfl
    · exact pumpEvent_no_touch device.cs e (hp e hpe)
    · simp only [List.mem_cons, List.not_mem_nil, or_false] at hwc
      rcases hwc with rfl | rfl <;> rfl
    · simp only [List.mem_singleton] at hse
      subst hse
      rfl

/-- C5 witness: the concrete locked configuration — task 7 holding
device 1.  A pure one-byte `read` of the other device (no source lease)
is rejected with `BadDevice` untouched, the holder's `lock` call for
the other device likewise, and the holder's one-byte exchange on the
locked device succeeds without touching its chip-select pin. -/
theorem c5_amended_witness :
    (ready_writey cfgC slaveEcho 20 SpiOperation.read 0 none (some 1) srvLocked1 hw0 =
      { srv := srvLocked1, hw := hw0, out := Outcome.err SpiError.BadDevice
        evs := [], ctrs := [] }) ∧
    (lock cfgC (LockState.mk 7 1).task 0 CsState.asserted srvLocked1 =
      (srvLocked1, Outcome.err SpiError.BadDevice, [])) ∧
    ((ready_writey cfgC slaveEcho 20 SpiOperation.exchange 1 (some [5]) (some 1)
        srvLocked1 hw0).out = Outcome.ok ∧
     (ready_writey cfgC slaveEcho 20 SpiOperation.exchange 1 (some [5]) (some 1)
        srvLocked1 hw0).srv.lock_holder = srvLocked1.lock_holder ∧
     ∀ e ∈ (ready_writey cfgC slaveEcho 20 SpiOperation.exchange 1 (some [5]) (some 1)
        srvLocked1 hw0).evs, touchesPinSet dev1.cs e = false) :=
  ⟨(c5_amended_lock_routing cfgC slaveEcho 20 SpiOperation.read none (some 1)
      1 srvLocked1 hw0 (LockState.mk 7 1) dev1 muxOpt0 muxOpt1 rfl rfl).1 0
      (by decide),
   (c5_amended_lock_routing cfgC slaveEcho 20 SpiOperation.read none (some 1)
      1 srvLocked1 hw0 (LockState.mk 7 1) dev1 muxOpt0 muxOpt1 rfl rfl).2.1 0
      CsState.asserted (by decide),
   (c5_amended_lock_routing cfgC slaveEcho 20 SpiOperation.exchange (some [5])
      (some 1) 1 srvLocked1 hw0 (LockState.mk 7 1) dev1 muxOpt0 muxOpt1 rfl rfl).2.2
      rfl
      (by intro opt hopt pa hpa hport; fin_cases hopt <;> fin_cases hpa <;>
        exact absurd hport (by decide))
      rfl rfl rfl (by decide) rfl rfl rfl (by decide) (by decide)⟩

/-- C6 counterexample: task 7 locks device 1 with chip-select asserted,
then its channel is observed closed.  `closed_recv_fail` clears the
lock — but it touches only the server state, so the chip-select pin,
driven low by the lock, is still asserted: at the point where the next
transfer would begin, chip-select has not been deasserted, refuting
"chip-select starts deasserted before any new auto-chip-select
transfer begins". -/
theorem c6_crash_leaves_cs_asserted_counterexample :
    closed_recv_fail (lock cfgC 7 1 CsState.asserted srv0).fst =
      { lock_holder := none, current_mux_index := 0 } ∧
    csDeasserted
      (applyEvents (applyEvents pinsZero (startup_events cfgC))
        (lock cfgC 7 1 CsState.asserted srv0).snd.snd) dev1 = false := by
  exact ⟨by decide, by decide⟩

/-- C6 amended: observing the holder's channel closed clears the lock
through a pure state update (`closed_recv_fail` performs no hardware
operation and keeps the mux index); a subsequent request from any new
caller to the device then succeeds, and — whatever level the crashed
holder left the pin at — the transfer's own closing auto-deassert
leaves chip-select deasserted after it completes. -/
theorem c6_amended_crash_release (cfg : ServerConfig) (slave : Nat → Byte → Byte)
    (fuel : Nat) (op : SpiOperation) (device_index : Nat) (data_src : Option (List Byte))
    (data_dest : Option Nat) (srv : Server) (hw : HwState) (device : DeviceDescriptor)
    (optOld optNew : SpiMuxOption) (pins : Pins)
    (hdev : cfg.devices.get? device_index = some device)
    (hOld : cfg.mux_options.get? srv.current_mux_index = some optOld)
    (hNew : cfg.mux_options.get? device.mux_index = some optNew)
    (hsrc : data_src.isSome = true)
    (hol : max (data_src.getD []).length (data_dest.getD 0) ≠ 0)
    (hTxF : hw.txFifo = []) (hRxF : hw.rxFifo = []) (hOv : hw.overrun = false)
    (hCap : 1 ≤ hw.fifoCap)
    (hfuel : 3 * max (data_src.getD []).length (data_dest.getD 0) + 2 ≤ fuel)
    (hmask : device.cs.pin_mask ≠ 0) :
    (closed_recv_fail srv).lock_holder = none ∧
    (closed_recv_fail srv).current_mux_index = srv.current_mux_index ∧
    (ready_writey cfg slave fuel op device_index data_src data_dest
      (closed_recv_fail srv) hw).out = Outcome.ok ∧
    csDeasserted
      (applyEvents pins (ready_writey cfg slave fuel op device_index data_src data_dest
        (closed_recv_fail srv) hw).evs) device = true := by
  obtain ⟨pumpEvs, hp, hout, hsrv, hevs⟩ :=
    ready_writey_success cfg slave fuel op device_index data_src data_dest
      (closed_recv_fail srv) hw device optOld optNew
      (by intro ls h; exact Option.noConfusion h) hdev hOld hNew hsrc hol hTxF hRxF
      hOv hCap hfuel
  refine ⟨rfl, rfl, hout, ?_⟩
  rw [hevs]
  have hfalse : ¬((closed_recv_fail srv).lock_holder.isSome = true) := by
    simp [closed_recv_fail]
  rw [if_neg hfalse, if_neg hfalse, applyEvents_append]
  exact csDeasserted_after_set _ device hmask

/-- C6 witness: after the crash of the lock holder of device 1, a fresh
one-byte exchange to device 1 succeeds and ends with chip-select
deasserted, starting from the very pin state the crashed holder left
asserted. -/
theorem c6_amended_witness :
    (closed_recv_fail srvLocked1).lock_holder = none ∧
    (closed_recv_fail srvLocked1).current_mux_index = srvLocked1.current_mux_index ∧
    (ready_writey cfgC slaveEcho 20 SpiOperation.exchange 1 (some [5]) (some 1)
      (closed_recv_fail srvLocked1) hw0).out = Outcome.ok ∧
    csDeasserted
      (applyEvents
        (applyEvents (applyEvents pinsZero (startup_events cfgC))
          (lock cfgC 7 1 CsState.asserted srv0).snd.snd)
        (ready_writey cfgC slaveEcho 20 SpiOperation.exchange 1 (some [5]) (some 1)
          (closed_recv_fail srvLocked1) hw0).evs) dev1 = true :=
  c6_amended_crash_release cfgC slaveEcho 20 SpiOperation.exchange 1 (some [5])
    (some 1) srvLocked1 hw0 dev1 muxOpt0 muxOpt1
    (applyEvents (applyEvents pinsZero (startup_events cfgC))
      (lock cfgC 7 1 CsState.asserted srv0).snd.snd)
    rfl rfl rfl rfl (by decide) rfl rfl rfl (by decide) (by decide) (by decide)

/-- C7: a device index at or past the configured device count is
rejected with `BadDevice` by read, write, exchange and lock alike (with
no lock held, or called by the holder for the locked device), and a
zero overall length is rejected with `BadTransferSize` whatever the
operation kind. -/
theorem c7_request_validation (cfg : ServerConfig) (slave : Nat → Byte → Byte)
    (fuel i j destLen sender : Nat) (srcW srcE : List Byte) (destE : Nat)
    (cs_state : CsState) (srv : Server) (hw : HwState) (device : DeviceDescriptor)
    (hlcI : lockCompat srv i) (hlcJ : lockCompat srv j)
    (hsender : ∀ ls, srv.lock_holder = some ls → ls.task = sender)
    (hi : cfg.devices.length ≤ i)
    (hj : cfg.devices.get? j = some device) :
    (read cfg slave fuel i destLen srv hw).out = Outcome.err SpiError.BadDevice ∧
    (write cfg slave fuel i srcW srv hw).out = Outcome.err SpiError.BadDevice ∧
    (exchange cfg slave fuel i srcE destE srv hw).out =
      Outcome.err SpiError.BadDevice ∧
    (lock cfg sender i cs_state srv).snd.fst = Outcome.err SpiError.BadDevice ∧
    (read cfg slave fuel j 0 srv hw).out = Outcome.err SpiError.BadTransferSize ∧
    (write cfg slave fuel j [] srv hw).out = Outcome.err SpiError.BadTransferSize ∧
    (exchange cfg slave fuel j [] 0 srv hw).out =
      Outcome.err SpiError.BadTransferSize := by
  have hnone : cfg.devices.get? i = none := List.get?_eq_none.mpr hi
  have hbd : ∀ (op : SpiOperation) (ds : Option (List Byte)) (dd : Option Nat),
      (ready_writey cfg slave fuel op i ds dd srv hw).out =
        Outcome.err SpiError.BadDevice := by
    intro op ds dd
    rw [ready_writey_lock_pass cfg slave fuel op i ds dd srv hw hlcI,
      ready_writey_validated_badDevice cfg slave fuel i ds dd srv hw hnone]
  have hbs : ∀ (op : SpiOperation) (ds : Option (List Byte)) (dd : Option Nat),
      ds.isSome = true ∨ dd.isSome = true →
      max (ds.getD []).length (dd.getD 0) = 0 →
      (ready_writey cfg slave fuel op j ds dd srv hw).out =
        Outcome.err SpiError.BadTransferSize := by
    intro op ds dd hstream hz
    rw [ready_writey_lock_pass cfg slave fuel op j ds dd srv hw hlcJ,
      ready_writey_validated_badSize cfg slave fuel j ds dd srv hw device hj hstream
        hz]
  have hlk : (lock cfg sender i cs_state srv).snd.fst =
      Outcome.err SpiError.BadDevice := by
    cases hl : srv.lock_holder with
    | none => simp only [lock, hl, lock_rest, hnone]
    | some ls =>
      have hts : ls.task = sender := hsender ls hl
      have hdi : ls.device_index = i := hlcI ls hl
      simp only [lock, hl, if_neg (not_ne_iff.mpr hts), if_neg (not_ne_iff.mpr hdi),
        lock_rest, hnone]
  refine ⟨?_, ?_, ?_, hlk, ?_, ?_, ?_⟩
  · simp only [read]
    exact hbd SpiOperation.read none (some destLen)
  · simp only [write]
    exact hbd SpiOperation.write (some srcW) none
  · simp only [exchange]
    exact hbd SpiOperation.exchange (some srcE) (some destE)
  · simp only [read]
    exact hbs SpiOperation.read none (some 0) (Or.inr rfl) rfl
  · simp only [write]
    exact hbs SpiOperation.write (some []) none (Or.inl rfl) rfl
  · simp only [exchange]
    exact hbs SpiOperation.exchange (some []) (some 0) (Or.inl rfl) rfl

/-- C7 witness: device index 5 of the two-device example configuration
is rejected, and zero-length requests on device 0 are rejected. -/
theorem c7_request_validation_witness :
    (read cfgC slaveEcho 9 5 4 srv0 hw0).out = Outcome.err SpiError.BadDevice ∧
    (write cfgC slaveEcho 9 5 [1, 2] srv0 hw0).out = Outcome.err SpiError.BadDevice ∧
    (exchange cfgC slaveEcho 9 5 [1] 2 srv0 hw0).out =
      Outcome.err SpiError.BadDevice ∧
    (lock cfgC 3 5 CsState.asserted srv0).snd.fst = Outcome.err SpiError.BadDevice ∧
    (read cfgC slaveEcho 9 0 0 srv0 hw0).out = Outcome.err SpiError.BadTransferSize ∧
    (write cfgC slaveEcho 9 0 [] srv0 hw0).out =
      Outcome.err SpiError.BadTransferSize ∧
    (exchange cfgC slaveEcho 9 0 [] 0 srv0 hw0).out =
      Outcome.err SpiError.BadTransferSize :=
  c7_request_validation cfgC slaveEcho 9 5 0 4 3 [1, 2] [1] 2 CsState.asserted srv0
    hw0 dev0 (by intro ls h; exact Option.noConfusion h)
    (by intro ls h; exact Option.noConfusion h)
    (by intro ls h; exact Option.noConfusion h) (by decide) rfl

/-- After any validated transfer request the server records the
requested device's mux index, whatever the pump outcome. -/
theorem ready_writey_srv_current (cfg : ServerConfig) (slave : Nat → Byte → Byte)
    (fuel : Nat) (op : SpiOperation) (device_index : Nat) (data_src : Option (List Byte))
    (data_dest : Option Nat) (srv : Server) (hw : HwState) (device : DeviceDescriptor)
    (optOld optNew : SpiMuxOption)
    (hlc : lockCompat srv device_index)
    (hdev : cfg.devices.get? device_index = some device)
    (hstream : data_src.isSome = true ∨ data_dest.isSome = true)
    (hol : max (data_src.getD []).length (data_dest.getD 0) ≠ 0)
    (hOld : cfg.mux_options.get? srv.current_mux_index = some optOld)
    (hNew : cfg.mux_options.get? device.mux_index = some optNew) :
    (ready_writey cfg slave fuel op device_index data_src data_dest srv
      hw).srv.current_mux_index = device.mux_index := by
  rw [ready_writey_lock_pass cfg slave fuel op device_index data_src data_dest srv hw
    hlc,
    ready_writey_validated_commit cfg slave fuel device_index data_src data_dest srv
      hw device hdev hstream hol]
  by_cases hm : device.mux_index = srv.current_mux_index
  · rw [ready_writey_commit_noswitch cfg slave fuel device data_src data_dest
      (max (data_src.getD []).length (data_dest.getD 0)) srv hw hm,
      ready_writey_primed_srv]
    exact hm.symm
  · rw [ready_writey_commit_switch cfg slave fuel device data_src data_dest
      (max (data_src.getD []).length (data_dest.getD 0)) srv hw optOld optNew hm hOld
      hNew,
      ready_writey_primed_srv]

/-- C8: mux switching happens exactly when the requested device's mux
index differs from the routed one: with the indices equal the call
performs no mux event and the routed index is unchanged; with them
different the events open with the full deactivation of the old option
followed by the activation of the new one and the server records the
new index; consequently a second transfer to a device sharing the first
device's mux index performs no mux event. -/
theorem c8_mux_switching (cfg : ServerConfig) (slave : Nat → Byte → Byte) (fuel : Nat)
    (op : SpiOperation) (device_index : Nat) (data_src : Option (List Byte))
    (data_dest : Option Nat) (srv : Server) (hw : HwState) (device : DeviceDescriptor)
    (optOld optNew : SpiMuxOption)
    (hlc : lockCompat srv device_index)
    (hdev : cfg.devices.get? device_index = some device)
    (hstream : data_src.isSome = true ∨ data_dest.isSome = true)
    (hol : max (data_src.getD []).length (data_dest.getD 0) ≠ 0)
    (hOld : cfg.mux_options.get? srv.current_mux_index = some optOld)
    (hNew : cfg.mux_options.get? device.mux_index = some optNew) :
    (device.mux_index = srv.current_mux_index →
      (∀ e ∈ (ready_writey cfg slave fuel op device_index data_src data_dest srv
        hw).evs, isMuxEvent e = false) ∧
      (ready_writey cfg slave fuel op device_index data_src data_dest srv
        hw).srv.current_mux_index = srv.current_mux_index) ∧
    (device.mux_index ≠ srv.current_mux_index →
      (∃ tail : List Event,
        (ready_writey cfg slave fuel op device_index data_src data_dest srv hw).evs =
          (deactivate_mux_option optOld ++ activate_mux_option optNew) ++ tail) ∧
      (ready_writey cfg slave fuel op device_index data_src data_dest srv
        hw).srv.current_mux_index = device.mux_index) ∧
    (∀ (op2 : SpiOperation) (ds2 : Option (List Byte)) (dd2 : Option Nat) (idx2 : Nat)
      (device2 : DeviceDescriptor) (hw2 : HwState),
      cfg.devices.get? idx2 = some device2 →
      device2.mux_index = device.mux_index →
      ∀ e ∈ (ready_writey cfg slave fuel op2 idx2 ds2 dd2
        (ready_writey cfg slave fuel op device_index data_src data_dest srv hw).srv
        hw2).evs, isMuxEvent e = false) := by
  have hcur := ready_writey_srv_current cfg slave fuel op device_index data_src
    data_dest srv hw device optOld optNew hlc hdev hstream hol hOld hNew
  refine ⟨?_, ?_, ?_⟩
  · intro hm
    refine ⟨ready_writey_no_mux cfg slave fuel op device_index data_src data_dest srv
      hw device hdev hm, ?_⟩
    rw [hcur]
    exact hm
  · intro hm
    refine ⟨?_, hcur⟩
    rw [ready_writey_lock_pass cfg slave fuel op device_index data_src data_dest srv
      hw hlc,
      ready_writey_validated_commit cfg slave fuel device_index data_src data_dest srv
        hw device hdev hstream hol,
      ready_writey_commit_switch cfg slave fuel device data_src data_dest
        (max (data_src.getD []).length (data_dest.getD 0)) srv hw optOld optNew hm
        hOld hNew]
    obtain ⟨tail, htail⟩ := ready_writey_primed_prefix slave fuel device data_src
      data_dest (max (data_src.getD []).length (data_dest.getD 0))
      { srv with current_mux_index := device.mux_index } hw
      (deactivate_mux_option optOld ++ activate_mux_option optNew)
    exact ⟨_, by rw [htail, List.append_assoc, List.append_assoc]⟩
  · intro op2 ds2 dd2 idx2 device2 hw2 hdev2 hm2
    exact ready_writey_no_mux cfg slave fuel op2 idx2 ds2 dd2 _ hw2 device2 hdev2
      (by rw [hm2, hcur])

/-- C8 witness: an exchange to device 1 from the startup state switches
the mux from option 0 to option 1, opening with the deactivation of
option 0 and the activation of option 1. -/
theorem c8_mux_switching_witness :
    (∃ tail : List Event,
      (ready_writey cfgC slaveEcho 20 SpiOperation.exchange 1 (some [5]) (some 1) srv0
        hw0).evs =
        (deactivate_mux_option muxOpt0 ++ activate_mux_option muxOpt1) ++ tail) ∧
    (ready_writey cfgC slaveEcho 20 SpiOperation.exchange 1 (some [5]) (some 1) srv0
      hw0).srv.current_mux_index = dev1.mux_index :=
  (c8_mux_switching cfgC slaveEcho 20 SpiOperation.exchange 1 (some [5]) (some 1)
    srv0 hw0 dev1 muxOpt0 muxOpt1 (by intro ls h; exact Option.noConfusion h) rfl
    (Or.inl rfl) (by decide) rfl rfl).2.1 (by decide)

/-- C9: with no lock held, `release` returns `NothingToRelease` and
changes nothing; after a successful `lock`, `release` from the holder
deasserts (sets) the locked device's chip-select pin and clears the
lock, so an immediately repeated `release` again returns
`NothingToRelease`. -/
theorem c9_release_semantics (cfg : ServerConfig) (sender d : Nat)
    (cs_state : CsState) (srv : Server) (device : DeviceDescriptor)
    (hl : srv.lock_holder = none)
    (hdev : cfg.devices.get? d = some device) :
    release cfg sender srv = (srv, Outcome.err SpiError.NothingToRelease, []) ∧
    (lock cfg sender d cs_state srv).snd.fst = Outcome.ok ∧
    release cfg sender (lock cfg sender d cs_state srv).fst =
      ({ srv with lock_holder := none }, Outcome.ok,
       [Event.setReset device.cs.port device.cs.pin_mask 0]) ∧
    (release cfg sender (lock cfg sender d cs_state srv).fst).fst.lock_holder =
      none ∧
    (release cfg sender
      (release cfg sender (lock cfg sender d cs_state srv).fst).fst).snd.fst =
      Outcome.err SpiError.NothingToRelease := by
  have hlock := lock_unlocked_ok cfg sender d cs_state srv device hl hdev
  have hrel := release_holder cfg sender (lock cfg sender d cs_state srv).fst
    (LockState.mk sender d) device (by rw [hlock]) rfl hdev
  refine ⟨release_none cfg sender srv hl, ?_, ?_, ?_, ?_⟩
  · rw [hlock]
  · rw [hrel, hlock]
  · rw [hrel]
  · rw [hrel]
    refine congrArg (fun p => p.snd.fst) (release_none cfg sender _ ?_)
    rfl

/-- C9 witness: task 3 locks device 0 of the example configuration and
releases it. -/
theorem c9_release_semantics_witness :
    release cfgC 3 srv0 = (srv0, Outcome.err SpiError.NothingToRelease, []) ∧
    (lock cfgC 3 0 CsState.asserted srv0).snd.fst = Outcome.ok ∧
    release cfgC 3 (lock cfgC 3 0 CsState.asserted srv0).fst =
      ({ srv0 with lock_holder := none }, Outcome.ok,
       [Event.setReset dev0.cs.port dev0.cs.pin_mask 0]) ∧
    (release cfgC 3 (lock cfgC 3 0 CsState.asserted srv0).fst).fst.lock_holder =
      none ∧
    (release cfgC 3
      (release cfgC 3 (lock cfgC 3 0 CsState.asserted srv0).fst).fst).snd.fst =
      Outcome.err SpiError.NothingToRelease :=
  c9_release_semantics cfgC 3 0 CsState.asserted srv0 dev0 rfl rfl

/-- C10: every client-correctable error return is atomic.  A transfer
request that returns an error leaves the server state, the hardware,
the event list and the counter trace exactly as before the call; an
erroring `lock` and an erroring `release` likewise return the original
server state and perform no hardware event. -/
theorem c10_error_atomicity (cfg : ServerConfig) (slave : Nat → Byte → Byte)
    (fuel : Nat) (op : SpiOperation) (device_index : Nat)
    (data_src : Option (List Byte)) (data_dest : Option Nat) (srv : Server)
    (hw : HwState) (sender devidx : Nat) (cs_state : CsState) :
    (∀ e, (ready_writey cfg slave fuel op device_index data_src data_dest srv
        hw).out = Outcome.err e →
      ready_writey cfg slave fuel op device_index data_src data_dest srv hw =
        { srv := srv, hw := hw, out := Outcome.err e, evs := [], ctrs := [] }) ∧
    (∀ e, (lock cfg sender devidx cs_state srv).snd.fst = Outcome.err e →
      lock cfg sender devidx cs_state srv = (srv, Outcome.err e, [])) ∧
    (∀ e, (release cfg sender srv).snd.fst = Outcome.err e →
      release cfg sender srv = (srv, Outcome.err e, [])) := by
  refine ⟨?_, ?_, ?_⟩
  · intro e h
    exact ready_writey_err_frame cfg slave fuel op device_index data_src data_dest srv
      hw e h
  · intro e h
    cases hl : srv.lock_holder with
    | none =>
      simp only [lock, hl, lock_rest] at h ⊢
      cases hdev : cfg.devices.get? devidx with
      | none =>
        simp only [hdev] at h ⊢
        injection h with h2
        rw [← h2]
      | some device =>
        simp only [hdev] at h
        exact absurd h (by intro hz; exact Outcome.noConfusion hz)
    | some ls =>
      by_cases hts : ls.task ≠ sender
      · simp only [lock, hl, if_pos hts] at h
        exact absurd h (by intro hz; exact Outcome.noConfusion hz)
      · by_cases hdi : ls.device_index ≠ devidx
        · simp only [lock, hl, if_neg hts, if_pos hdi] at h ⊢
          injection h with h2
          rw [← h2]
        · simp only [lock, hl, if_neg hts, if_neg hdi, lock_rest] at h ⊢
          cases hdev : cfg.devices.get? devidx with
          | none =>
            simp only [hdev] at h ⊢
            injection h with h2
            rw [← h2]
          | some device =>
            simp only [hdev] at h
            exact absurd h (by intro hz; exact Outcome.noConfusion hz)
  · intro e h
    cases hl : srv.lock_holder with
    | none =>
      simp only [release, hl] at h ⊢
      injection h with h2
      rw [← h2]
    | some ls =>
      by_cases hts : ls.task ≠ sender
      · simp only [release, hl, if_pos hts] at h
        exact absurd h (by intro hz; exact Outcome.noConfusion hz)
      · simp only [release, hl, if_neg hts] at h
        cases hdev : cfg.devices.get? ls.device_index with
        | none =>
          simp only [hdev] at h
          exact absurd h (by intro hz; exact Outcome.noConfusion hz)
        | some device =>
          simp only [hdev] at h
          exact absurd h (by intro hz; exact Outcome.noConfusion hz)

/-- C10 witness: the `BadDevice` error of an out-of-range read on the
example configuration is atomic. -/
theorem c10_error_atomicity_witness :
    ready_writey cfgC slaveEcho 5 SpiOperation.read 9 none (some 1) srv0 hw0 =
      { srv := srv0, hw := hw0, out := Outcome.err SpiError.BadDevice, evs := []
        ctrs := [] } :=
  (c10_error_atomicity cfgC slaveEcho 5 SpiOperation.read 9 none (some 1) srv0 hw0 3
    9 CsState.asserted).1 SpiError.BadDevice (by decide)

end SpiServer
